import Mathlib

/-!
Verification of the progress synchronization engine of The-Story-Trail-Kokkola.

The development shallowly embeds the server-side Motoko actor (the
authoritative store: `updateProgress`, `updateMainProgress`, `getUserProgress`,
`ensureProgressInitialized`, `isLocationCompleted`, `initializeLocations`) and
the client-side TypeScript sync layer (`saveProgressToLocalStorage`,
`loadProgressFromLocalStorage`, `markProgressAsUnsynced`,
`hasUnsyncedProgress`, `syncUnsyncedProgress`, the optimistic-update mutation
`useUpdateUserProgress`, and the bounded-retry helper `retryWithBackoff` of
`QuestTaskPopup`), and proves the spec's testable properties against them.

Machine integers: Motoko `Nat` and frontend `bigint` are arbitrary-precision,
so both are embedded as Lean `Nat` with no modular truncation.  Motoko `trap`
aborts the message and rolls back all state changes of the call, so every
trapping entry point is embedded as an `Except` value whose error carries no
state (the caller keeps the pre-call state).  `localStorage` text storage is
embedded at the level of decimal digit sequences: `n.toString()` becomes the
big-endian decimal digit list of `n`, and `BigInt(s)` becomes the decimal
fold over those digits.
-/

/-- Caller principals are opaque stable identifiers; embedded as `Nat`. -/
abbrev Principal := Nat

/-- `MainProgress` record of the backend actor: the three derived stage
flags. -/
structure MainProgress where
  stage1 : Bool
  stage2 : Bool
  stage3 : Bool
deriving Repr, DecidableEq

/-- `UserProgress` record of the backend actor (also the shape the frontend
receives).  `completedLocations` is the insertion-ordered array of completed
sequence numbers. -/
structure UserProgress where
  lastCompletedLocation : Nat
  completedLocations : List Nat
  currentSequences : List Nat
  totalLocations : Nat
  mainProgress : MainProgress
deriving Repr, DecidableEq

/-- `StoryLocation` record of the backend actor.  The `coordinates` field
(`Float` latitude/longitude) and the presentation strings are carried only for
the map UI and are never read by the progress logic, so the embedding keeps
the fields the progress logic reads: `id` and `sequenceNumber`, plus the
`nextLocationHint`/`title`/`content`/`audioUrl` text payload. -/
structure StoryLocation where
  id : String
  title : String
  content : String
  audioUrl : Option String
  sequenceNumber : Nat
  nextLocationHint : String
deriving Repr, DecidableEq

/-- The `initialProgress` value created by `ensureProgressInitialized` for a
first-time identity. -/
def initialProgress : UserProgress :=
  { lastCompletedLocation := 0
    completedLocations := []
    currentSequences := []
    totalLocations := 3
    mainProgress := { stage1 := false, stage2 := false, stage3 := false } }

/-- Server-side actor state: the two `Map`s keyed by principal / location id,
embedded as functions, together with the access-control facts the guards
consult (`AccessControl.hasPermission _ u #user` and `#admin`; the
access-control module itself is an external collaborator, so its state is
abstracted to the two boolean verdicts the progress code branches on). -/
structure BackendState where
  userProgress : Principal → Option UserProgress
  storyLocations : String → Option StoryLocation
  userPermission : Principal → Bool
  adminPermission : Principal → Bool

/-- `Map.add` on the per-user progress map. -/
def putProgress (s : BackendState) (user : Principal) (p : UserProgress) :
    BackendState :=
  { s with userProgress := fun u => if u = user then some p else s.userProgress u }

/-- Backend `ensureProgressInitialized`: returns the stored record, or the
initial record — adding it to the map as a side effect when the user has the
`#user` permission. -/
def ensureProgressInitialized (s : BackendState) (user : Principal) :
    BackendState × UserProgress :=
  match s.userProgress user with
  | some progress => (s, progress)
  | none =>
      if s.userPermission user then
        (putProgress s user initialProgress, initialProgress)
      else
        (s, initialProgress)

/-- Backend `isLocationCompleted`: membership test via `find`. -/
def isLocationCompleted (completedLocations : List Nat) (sequenceNumber : Nat) :
    Bool :=
  (completedLocations.find? (fun completed => completed == sequenceNumber)).isSome

/-- The traps of the progress entry points (Motoko `Runtime.trap` messages). -/
inductive BackendError where
  /-- "Unauthorized: Only authenticated users can ..." -/
  | unauthorized
  /-- "Invalid location ID: Location not found" -/
  | invalidLocationId
  /-- "Invalid sequence number: Out of range (1-totalLocations)"; the spec's
  error taxonomy names this class `InvalidLocation`. -/
  | invalidSequenceNumber
  /-- "Invalid stage: Must be between 1 and 3" -/
  | invalidStage
deriving Repr, DecidableEq

/-- Backend `updateProgress(locationId, workingSequences)`: the authoritative
write.  Mirrors the source order exactly: permission guard, location lookup,
lazy initialization, duplicate check (early no-op return), range check
(trap), then append + stage-flag recomputation + store. -/
def updateProgress (s : BackendState) (caller : Principal) (locationId : String)
    (workingSequences : List Nat) :
    Except BackendError (BackendState × UserProgress) :=
  if !s.userPermission caller then .error .unauthorized
  else
    match s.storyLocations locationId with
    | none => .error .invalidLocationId
    | some location =>
        let init := ensureProgressInitialized s caller
        let s₁ := init.1
        let currentProgress := init.2
        let completedLocations := currentProgress.completedLocations
        if isLocationCompleted completedLocations location.sequenceNumber then
          .ok (s₁, currentProgress)
        else if location.sequenceNumber < 1 ∨
            location.sequenceNumber > currentProgress.totalLocations then
          .error .invalidSequenceNumber
        else
          let newCompletedLocations :=
            completedLocations ++ [location.sequenceNumber]
          let completedCount := newCompletedLocations.length
          let updatedMainProgress : MainProgress :=
            { stage1 := completedCount ≥ 1
              stage2 := completedCount ≥ 2
              stage3 := completedCount ≥ 3 }
          let newProgress : UserProgress :=
            { lastCompletedLocation := location.sequenceNumber
              completedLocations := newCompletedLocations
              currentSequences := workingSequences
              totalLocations := currentProgress.totalLocations
              mainProgress := updatedMainProgress }
          .ok (putProgress s₁ caller newProgress, newProgress)

/-- The state after an `updateProgress` message: the new state on success, the
unchanged pre-call state on a trap (Motoko rollback semantics). -/
def runUpdateProgress (s : BackendState) (caller : Principal)
    (locationId : String) (workingSequences : List Nat) : BackendState :=
  match updateProgress s caller locationId workingSequences with
  | .ok (s', _) => s'
  | .error _ => s

/-- Backend `updateMainProgress(stage)`: sets the requested stage flag to
`true` directly, keeping the other two flags and the rest of the record. -/
def updateMainProgress (s : BackendState) (caller : Principal) (stage : Nat) :
    Except BackendError BackendState :=
  if !s.userPermission caller then .error .unauthorized
  else if stage < 1 ∨ stage > 3 then .error .invalidStage
  else
    let init := ensureProgressInitialized s caller
    let s₁ := init.1
    let currentProgress := init.2
    let updatedMainProgress : MainProgress :=
      match stage with
      | 1 => { currentProgress.mainProgress with stage1 := true }
      | 2 => { currentProgress.mainProgress with stage2 := true }
      | 3 => { currentProgress.mainProgress with stage3 := true }
      | _ => currentProgress.mainProgress
    let updatedProgress : UserProgress :=
      { currentProgress with mainProgress := updatedMainProgress }
    .ok (putProgress s₁ caller updatedProgress)

/-- The state after an `updateMainProgress` message (rollback on trap). -/
def runUpdateMainProgress (s : BackendState) (caller : Principal)
    (stage : Nat) : BackendState :=
  match updateMainProgress s caller stage with
  | .ok s' => s'
  | .error _ => s

/-- Backend `getUserProgress` query: permission guard then lazy read
(creating the record as a side effect for a first-time identity). -/
def getUserProgress (s : BackendState) (caller : Principal) :
    Except BackendError (BackendState × UserProgress) :=
  if !s.userPermission caller then .error .unauthorized
  else .ok (ensureProgressInitialized s caller)

/-- The state after a `getUserProgress` message (rollback on trap). -/
def runGetUserProgress (s : BackendState) (caller : Principal) : BackendState :=
  match getUserProgress s caller with
  | .ok (s', _) => s'
  | .error _ => s

/-- The two seeded story locations of backend `initializeLocations`. -/
def location1 : StoryLocation :=
  { id := "location_1"
    title := "Neristan - The Old Wooden Town"
    content := "Seek out a porcelain dog in a window. What direction is it facing? Does it hint at someone lost or someone returned?"
    audioUrl := some "ElevenLabs_Text_to_Speech_audio.mp3"
    sequenceNumber := 1
    nextLocationHint := "Head to the Halkokari skirmish monument" }

/-- Second seeded story location. -/
def location2 : StoryLocation :=
  { id := "location_2"
    title := "Halkokari Skirmish Monument"
    content := "Find the memorial/park marker dedicated to the battle. What year did this clash take place?"
    audioUrl := some "Location_2_audio.mp3"
    sequenceNumber := 2
    nextLocationHint := "Continue your journey to the next location" }

/-- Backend `initializeLocations`: admin guard, then adds the two seeded
locations to the location map. -/
def initializeLocations (s : BackendState) (caller : Principal) :
    Except BackendError BackendState :=
  if !s.adminPermission caller then .error .unauthorized
  else
    .ok { s with
      storyLocations := fun id =>
        if id = location2.id then some location2
        else if id = location1.id then some location1
        else s.storyLocations id }

/-- The state after an `initializeLocations` message (rollback on trap). -/
def runInitializeLocations (s : BackendState) (caller : Principal) :
    BackendState :=
  match initializeLocations s caller with
  | .ok s' => s'
  | .error _ => s

/-- The operations any caller can direct at the authoritative store. -/
inductive BackendOp where
  | update (caller : Principal) (locationId : String)
      (workingSequences : List Nat)
  | updateMain (caller : Principal) (stage : Nat)
  | getProgress (caller : Principal)
  | initLocations (caller : Principal)
deriving Repr

/-- Message-level semantics of one backend operation. -/
def applyOp (s : BackendState) : BackendOp → BackendState
  | .update caller locationId workingSequences =>
      runUpdateProgress s caller locationId workingSequences
  | .updateMain caller stage => runUpdateMainProgress s caller stage
  | .getProgress caller => runGetUserProgress s caller
  | .initLocations caller => runInitializeLocations s caller

/-- Semantics of a sequence of backend operations. -/
def applyOps (s : BackendState) : List BackendOp → BackendState
  | [] => s
  | op :: rest => applyOps (applyOp s op) rest

/-- A deployment-initial backend state: empty progress map, a configured
story-location map (the deployed canister starts empty and is seeded by
`initializeLocations`; the location catalogue is configuration, not progress
state), and arbitrary access-control verdicts. -/
def initState (storyLocations : String → Option StoryLocation)
    (userPermission adminPermission : Principal → Bool) : BackendState :=
  { userProgress := fun _ => none
    storyLocations := storyLocations
    userPermission := userPermission
    adminPermission := adminPermission }

/-- States reachable from a deployment-initial state by backend operations. -/
inductive Reachable : BackendState → Prop where
  | init (storyLocations : String → Option StoryLocation)
      (userPermission adminPermission : Principal → Bool) :
      Reachable (initState storyLocations userPermission adminPermission)
  | step {s : BackendState} (op : BackendOp) :
      Reachable s → Reachable (applyOp s op)

/-- The completed-locations list the store holds for an identity (empty for an
identity with no record yet). -/
def progressSetOf (s : BackendState) (user : Principal) : List Nat :=
  match s.userProgress user with
  | some p => p.completedLocations
  | none => []

/-- Big-endian decimal digit list of `n`: the embedding of the JavaScript
string `n.toString()` used by `saveProgressToLocalStorage` (one list entry
per character of the stored string). -/
def natToDecimalDigits (n : Nat) : List Nat :=
  if _h : n < 10 then [n]
  else natToDecimalDigits (n / 10) ++ [n % 10]
decreasing_by
  exact Nat.div_lt_self (by omega) (by omega)

/-- Decimal value of a digit list: the embedding of `BigInt(s)` applied by
`loadProgressFromLocalStorage` to the stored decimal string. -/
def decimalDigitsToNat (digits : List Nat) : Nat :=
  digits.foldl (fun acc d => acc * 10 + d) 0

/-- The persisted `userProgress` localStorage record written by
`saveProgressToLocalStorage`: every numeric field is held in its decimal text
form (digit lists), plus the `timestamp` and `synced` bookkeeping fields. -/
structure StoredProgress where
  lastCompletedLocation : List Nat
  totalLocations : List Nat
  completedLocations : List (List Nat)
  mainProgress : MainProgress
  currentSequences : List (List Nat)
  timestamp : Nat
  synced : Bool
deriving Repr, DecidableEq

/-- Frontend `saveProgressToLocalStorage`: serializes every numeric field
through `toString` and stamps `synced := true` and the current time. -/
def saveProgressToLocalStorage (progress : UserProgress) (now : Nat) :
    StoredProgress :=
  { lastCompletedLocation := natToDecimalDigits progress.lastCompletedLocation
    totalLocations := natToDecimalDigits progress.totalLocations
    completedLocations := progress.completedLocations.map natToDecimalDigits
    mainProgress := progress.mainProgress
    currentSequences := progress.currentSequences.map natToDecimalDigits
    timestamp := now
    synced := true }

/-- Decoding of one stored record back to a `UserProgress` (the body of
frontend `loadProgressFromLocalStorage` after the `JSON.parse`): every text
field goes back through `BigInt`. -/
def decodeStoredProgress (sp : StoredProgress) : UserProgress :=
  { lastCompletedLocation := decimalDigitsToNat sp.lastCompletedLocation
    totalLocations := decimalDigitsToNat sp.totalLocations
    completedLocations := sp.completedLocations.map decimalDigitsToNat
    mainProgress := sp.mainProgress
    currentSequences := sp.currentSequences.map decimalDigitsToNat }

/-- Frontend `loadProgressFromLocalStorage`: `null` when nothing is cached,
otherwise the decoded record. -/
def loadProgressFromLocalStorage (store : Option StoredProgress) :
    Option UserProgress :=
  store.map decodeStoredProgress

/-- Frontend `markProgressAsUnsynced`: flips `synced` to `false` and updates
the timestamp of an existing cached record; does nothing when nothing is
cached. -/
def markProgressAsUnsynced (store : Option StoredProgress) (now : Nat) :
    Option StoredProgress :=
  store.map (fun sp => { sp with synced := false, timestamp := now })

/-- The inline re-parse-and-set blocks of `syncUnsyncedProgress` that write
`parsed.synced = true` back to localStorage. -/
def markStoredSynced (store : Option StoredProgress) : Option StoredProgress :=
  store.map (fun sp => { sp with synced := true })

/-- Frontend `hasUnsyncedProgress`: `false` when nothing is cached, otherwise
the `parsed.synced === false` test. -/
def hasUnsyncedProgress (store : Option StoredProgress) : Bool :=
  match store with
  | none => false
  | some sp => sp.synced == false

/-- The frontend's location-id-to-sequence-number resolution, written
inline in `useUpdateUserProgress`, `verifyProgressSaved` and `onMutate`:
`location_1` maps to 1, `location_2` to 2, everything else to 3. -/
def clientLocationNumber (locationId : String) : Nat :=
  if locationId = "location_1" then 1
  else if locationId = "location_2" then 2
  else 3

/-- The default progress object the frontend builds when neither the backend
nor localStorage has data. -/
def clientDefaultProgress : UserProgress :=
  { lastCompletedLocation := 0
    completedLocations := []
    currentSequences := []
    totalLocations := 3
    mainProgress := { stage1 := false, stage2 := false, stage3 := false } }

/-- The `onMutate` optimistic update of `useUpdateUserProgress`, applied to a
present previous value: append the location if it is not already completed
and recompute the three stage flags from the new count. -/
def optimisticUpdate (previousProgress : UserProgress) (locationId : String) :
    UserProgress :=
  let locationNumber := clientLocationNumber locationId
  if locationNumber ∈ previousProgress.completedLocations then previousProgress
  else
    let newCompletedLocations :=
      previousProgress.completedLocations ++ [locationNumber]
    let completedCount := newCompletedLocations.length
    { previousProgress with
      lastCompletedLocation := locationNumber
      completedLocations := newCompletedLocations
      mainProgress :=
        { stage1 := completedCount ≥ 1
          stage2 := completedCount ≥ 2
          stage3 := completedCount ≥ 3 } }

/-- `onMutate` on the query cache: no previous value means no optimistic
write. -/
def onMutateOptimistic (queryCache : Option UserProgress)
    (locationId : String) : Option UserProgress :=
  queryCache.map (fun p => optimisticUpdate p locationId)

/-- The error classes `useUpdateUserProgress.mutationFn` rethrows after its
message inspection, as consumed by `onError` and `handleComplete`. -/
inductive MutationError where
  /-- "Network error. Progress saved locally and will sync when connection is
  restored." -/
  | networkSavedLocally
  /-- "Location not found. The story locations may not be initialized yet." -/
  | locationNotFound
  /-- "Authentication required. Please log in again." -/
  | unauthorized
  /-- "Failed to update progress: ..." -/
  | other
deriving Repr, DecidableEq

/-- The catch branch of `useUpdateUserProgress.mutationFn` taken when the
backend call throws a network-class error (message containing
network/timeout/fetch): load the cached progress (or the default), insert the
location if absent, recompute the stage flags, save with `synced := true`,
and immediately mark unsynced; the cache is untouched when the location is
already cached. -/
def mutationFnNetworkFallback (store : Option StoredProgress)
    (locationId : String) (sequences : List Nat) (now : Nat) :
    Option StoredProgress :=
  let currentProgress :=
    (loadProgressFromLocalStorage store).getD clientDefaultProgress
  let locationNumber := clientLocationNumber locationId
  if locationNumber ∈ currentProgress.completedLocations then store
  else
    let newCompletedLocations :=
      currentProgress.completedLocations ++ [locationNumber]
    let completedCount := newCompletedLocations.length
    let updatedProgress : UserProgress :=
      { lastCompletedLocation := locationNumber
        totalLocations := 3
        completedLocations := newCompletedLocations
        mainProgress :=
          { stage1 := completedCount ≥ 1
            stage2 := completedCount ≥ 2
            stage3 := completedCount ≥ 3 }
        currentSequences := sequences }
    markProgressAsUnsynced (some (saveProgressToLocalStorage updatedProgress now)) now

/-- The `onError` handler of `useUpdateUserProgress`: roll the query cache
back to the snapshot unless the error message marks a network failure whose
progress was saved locally. -/
def onErrorRollback (currentCache previousProgress : Option UserProgress)
    (e : MutationError) : Option UserProgress :=
  if e ≠ MutationError.networkSavedLocally then
    match previousProgress with
    | some p => some p
    | none => currentCache
  else currentCache

/-- The toast kinds `handleComplete` can raise. -/
inductive ToastKind where
  | success
  | warning
  | failure
deriving Repr, DecidableEq

/-- What `handleComplete` surfaces to the user for a given outcome. -/
structure HandleCompleteResult where
  toast : ToastKind
  modalClosed : Bool
deriving Repr, DecidableEq

/-- The failure branch of `QuestTaskPopup.handleComplete`: a network failure
whose progress was saved locally surfaces as a warning ("Progress saved
locally. Will sync when connection is restored.") and closes the modal;
authorization and validation failures surface as errors and keep the modal
open for retry. -/
def handleCompleteFailure (e : MutationError) : HandleCompleteResult :=
  match e with
  | .networkSavedLocally => { toast := .warning, modalClosed := true }
  | .unauthorized => { toast := .failure, modalClosed := false }
  | .locationNotFound => { toast := .failure, modalClosed := false }
  | .other => { toast := .failure, modalClosed := false }

/-- The record `retryWithBackoff` resolves with. -/
structure RetryOutcome (T E : Type) where
  success : Bool
  result : Option T
  error : Option E
  attempts : Nat
deriving Repr, DecidableEq

/-- Loop body of `QuestTaskPopup.retryWithBackoff`, indexed by the current
zero-based attempt counter and the number of retries still permitted
(`remaining = maxRetries - attempt`, so `attempt < maxRetries` in the source
is `remaining > 0` here); `operation k` is the outcome of the k-th call of
the wrapped operation. -/
def retryWithBackoffFrom {T E : Type} (operation : Nat → Except E T)
    (maxRetries : Nat) : Nat → Nat → RetryOutcome T E
  | attempt, 0 =>
      match operation attempt with
      | .ok result =>
          { success := true, result := some result, error := none
            attempts := attempt + 1 }
      | .error e =>
          { success := false, result := none, error := some e
            attempts := maxRetries + 1 }
  | attempt, remaining + 1 =>
      match operation attempt with
      | .ok result =>
          { success := true, result := some result, error := none
            attempts := attempt + 1 }
      | .error _ =>
          retryWithBackoffFrom operation maxRetries (attempt + 1) remaining

/-- `QuestTaskPopup.retryWithBackoff`: up to `maxRetries + 1` total attempts,
returning on the first success, otherwise the last error after exhaustion.
Every thrown error consumes an attempt; the loop inspects no error class. -/
def retryWithBackoff {T E : Type} (operation : Nat → Except E T)
    (maxRetries : Nat) : RetryOutcome T E :=
  retryWithBackoffFrom operation maxRetries 0 maxRetries

/-- Client-visible state: the react-query `userProgress` cache entry and the
localStorage record. -/
structure ClientState where
  queryCache : Option UserProgress
  localStore : Option StoredProgress

/-- Iterated localStorage effect of `attempts` consecutive mutation calls
that all hit the network-error catch branch. -/
def networkOutageLocalStoreAfter (store : Option StoredProgress)
    (locationId : String) (sequences : List Nat) (now : Nat) :
    Nat → Option StoredProgress
  | 0 => store
  | k + 1 =>
      mutationFnNetworkFallback
        (networkOutageLocalStoreAfter store locationId sequences now k)
        locationId sequences now

/-- A whole `complete(identity, location)` call during a network outage: the
`onMutate` optimistic query-cache write, then `attempts` mutation attempts
that each throw a network-class error and run the localStorage fallback, then
the `onError` handler on the final `networkSavedLocally` rejection, and the
`handleComplete` surface.  The server is unreachable throughout, so it is not
an input. -/
def completeDuringNetworkOutage (cs : ClientState) (locationId : String)
    (sequences : List Nat) (now : Nat) (attempts : Nat) :
    ClientState × MutationError × HandleCompleteResult :=
  let previousProgress := cs.queryCache
  let optimisticCache := onMutateOptimistic cs.queryCache locationId
  let store' :=
    networkOutageLocalStoreAfter cs.localStore locationId sequences now attempts
  let err := MutationError.networkSavedLocally
  let finalCache := onErrorRollback optimisticCache previousProgress err
  ({ queryCache := finalCache, localStore := store' }, err,
    handleCompleteFailure err)

/-- The replay loop of `syncUnsyncedProgress`: one backend `updateProgress`
per pending location, aborting on the first failure.  Also returns the list
of location ids it attempted to write, for observation. -/
def syncLocationsLoop (server : BackendState) (caller : Principal)
    (locs : List Nat) (sequences : List Nat) :
    BackendState × Bool × List String :=
  match locs with
  | [] => (server, true, [])
  | locationNum :: rest =>
      let locationId := "location_" ++ toString locationNum
      match updateProgress server caller locationId sequences with
      | .error _ => (server, false, [locationId])
      | .ok (server', _) =>
          let r := syncLocationsLoop server' caller rest sequences
          (r.1, r.2.1, locationId :: r.2.2)

/-- Result of one `syncUnsyncedProgress` run: the server state, the
localStorage record, the boolean the function resolves with, and the location
ids it wrote. -/
structure SyncResult where
  server : BackendState
  store : Option StoredProgress
  ok : Bool
  writes : List String

/-- Frontend `syncUnsyncedProgress`: no-op unless the cache is unsynced;
otherwise read the authoritative store fresh, replay a write for every cached
location absent on the server, and mark the cache synced only when every
write succeeded. -/
def syncUnsyncedProgress (server : BackendState) (caller : Principal)
    (store : Option StoredProgress) : SyncResult :=
  if !hasUnsyncedProgress store then
    { server := server, store := store, ok := true, writes := [] }
  else
    match loadProgressFromLocalStorage store with
    | none => { server := server, store := store, ok := true, writes := [] }
    | some cachedProgress =>
        match getUserProgress server caller with
        | .error _ =>
            { server := server, store := store, ok := false, writes := [] }
        | .ok (server₁, backendProgress) =>
            let newLocations := cachedProgress.completedLocations.filter
              (fun loc =>
                !(backendProgress.completedLocations.any
                  (fun bLoc => bLoc == loc)))
            if newLocations.isEmpty then
              { server := server₁, store := markStoredSynced store
                ok := true, writes := [] }
            else
              let r := syncLocationsLoop server₁ caller newLocations
                cachedProgress.currentSequences
              if r.2.1 then
                { server := r.1, store := markStoredSynced store
                  ok := true, writes := r.2.2 }
              else
                { server := r.1, store := store, ok := false, writes := r.2.2 }

/-- Appending a digit multiplies the decoded value by ten and adds the
digit. -/
theorem decimalDigitsToNat_append (l : List Nat) (d : Nat) :
    decimalDigitsToNat (l ++ [d]) = decimalDigitsToNat l * 10 + d := by
  simp [decimalDigitsToNat, List.foldl_append]

/-- The decimal text encoding round-trips exactly on every natural number. -/
theorem decimalDigitsToNat_natToDecimalDigits (n : Nat) :
    decimalDigitsToNat (natToDecimalDigits n) = n := by
  induction n using Nat.strong_induction_on with
  | _ n ih =>
    rw [natToDecimalDigits]
    split
    · simp [decimalDigitsToNat]
    · next h =>
      rw [decimalDigitsToNat_append,
        ih (n / 10) (Nat.div_lt_self (by omega) (by omega))]
      omega

theorem putProgress_storyLocations (s : BackendState) (u : Principal)
    (p : UserProgress) :
    (putProgress s u p).storyLocations = s.storyLocations := rfl

theorem putProgress_userPermission (s : BackendState) (u : Principal)
    (p : UserProgress) :
    (putProgress s u p).userPermission = s.userPermission := rfl

theorem putProgress_adminPermission (s : BackendState) (u : Principal)
    (p : UserProgress) :
    (putProgress s u p).adminPermission = s.adminPermission := rfl

theorem putProgress_userProgress_self (s : BackendState) (u : Principal)
    (p : UserProgress) :
    (putProgress s u p).userProgress u = some p := by
  simp [putProgress]

theorem putProgress_userProgress_other (s : BackendState) (u v : Principal)
    (p : UserProgress) (h : v ≠ u) :
    (putProgress s u p).userProgress v = s.userProgress v := by
  simp [putProgress, h]

theorem ensure_of_some {s : BackendState} {u : Principal} {p : UserProgress}
    (h : s.userProgress u = some p) :
    ensureProgressInitialized s u = (s, p) := by
  simp [ensureProgressInitialized, h]

theorem ensure_storyLocations (s : BackendState) (u : Principal) :
    (ensureProgressInitialized s u).1.storyLocations = s.storyLocations := by
  cases h : s.userProgress u with
  | some p => simp [ensureProgressInitialized, h]
  | none =>
      by_cases hp : s.userPermission u = true <;>
        simp [ensureProgressInitialized, h, hp, putProgress]

theorem ensure_userPermission (s : BackendState) (u : Principal) :
    (ensureProgressInitialized s u).1.userPermission = s.userPermission := by
  cases h : s.userProgress u with
  | some p => simp [ensureProgressInitialized, h]
  | none =>
      by_cases hp : s.userPermission u = true <;>
        simp [ensureProgressInitialized, h, hp, putProgress]

theorem ensure_adminPermission (s : BackendState) (u : Principal) :
    (ensureProgressInitialized s u).1.adminPermission = s.adminPermission := by
  cases h : s.userProgress u with
  | some p => simp [ensureProgressInitialized, h]
  | none =>
      by_cases hp : s.userPermission u = true <;>
        simp [ensureProgressInitialized, h, hp, putProgress]

/-- The record `ensureProgressInitialized` returns is the stored one, or the
initial one for a fresh identity. -/
theorem ensure_snd (s : BackendState) (u : Principal) :
    (ensureProgressInitialized s u).2 = (s.userProgress u).getD initialProgress := by
  cases h : s.userProgress u with
  | some p => simp [ensureProgressInitialized, h]
  | none =>
      by_cases hp : s.userPermission u = true <;>
        simp [ensureProgressInitialized, h, hp]

/-- After `ensureProgressInitialized` for an authorized user, the map holds
exactly the returned record. -/
theorem ensure_userProgress_self {s : BackendState} {u : Principal}
    (hp : s.userPermission u = true) :
    (ensureProgressInitialized s u).1.userProgress u =
      some (ensureProgressInitialized s u).2 := by
  cases h : s.userProgress u with
  | some p => simp [ensureProgressInitialized, h]
  | none => simp [ensureProgressInitialized, h, hp, putProgress]

theorem ensure_userProgress_other (s : BackendState) (u v : Principal)
    (h : v ≠ u) :
    (ensureProgressInitialized s u).1.userProgress v = s.userProgress v := by
  cases hv : s.userProgress u with
  | some p => simp [ensureProgressInitialized, hv]
  | none =>
      by_cases hp : s.userPermission u = true <;>
        simp [ensureProgressInitialized, hv, hp, putProgress, h]

/-- The stored record after `ensureProgressInitialized`: unchanged when it
existed, possibly freshly created otherwise. -/
theorem ensure_userProgress_cases (s : BackendState) (u : Principal) :
    (ensureProgressInitialized s u).1.userProgress u = s.userProgress u ∨
      ((ensureProgressInitialized s u).1.userProgress u = some initialProgress ∧
        s.userProgress u = none) := by
  cases h : s.userProgress u with
  | some p => left; simp [ensureProgressInitialized, h]
  | none =>
      by_cases hp : s.userPermission u = true
      · right
        refine ⟨?_, rfl⟩
        simp [ensureProgressInitialized, h, hp, putProgress]
      · left
        simp [ensureProgressInitialized, h, hp]

/-- `isLocationCompleted` is list membership. -/
theorem isLocationCompleted_iff_mem (l : List Nat) (n : Nat) :
    isLocationCompleted l n = true ↔ n ∈ l := by
  simp [isLocationCompleted]

/-- The record the authoritative write stores on its append path (the
`newProgress` literal of the source). -/
def appendedProgress (currentProgress : UserProgress) (sequenceNumber : Nat)
    (workingSequences : List Nat) : UserProgress :=
  let newCompletedLocations :=
    currentProgress.completedLocations ++ [sequenceNumber]
  let completedCount := newCompletedLocations.length
  { lastCompletedLocation := sequenceNumber
    completedLocations := newCompletedLocations
    currentSequences := workingSequences
    totalLocations := currentProgress.totalLocations
    mainProgress :=
      { stage1 := completedCount ≥ 1
        stage2 := completedCount ≥ 2
        stage3 := completedCount ≥ 3 } }

/-- The flag update `updateMainProgress` performs for an in-range stage. -/
def mainFlagSet (mp : MainProgress) : Nat → MainProgress
  | 1 => { mp with stage1 := true }
  | 2 => { mp with stage2 := true }
  | 3 => { mp with stage3 := true }
  | _ => mp

/-- Trichotomy for the authoritative write with an authorized caller and a
resolving location id: duplicate no-op, out-of-range trap, or append. -/
theorem updateProgress_resolved (s : BackendState) (caller : Principal)
    (locationId : String) (seqs : List Nat) (location : StoryLocation)
    (hperm : s.userPermission caller = true)
    (hloc : s.storyLocations locationId = some location) :
    (isLocationCompleted (ensureProgressInitialized s caller).2.completedLocations
        location.sequenceNumber = true ∧
      updateProgress s caller locationId seqs =
        .ok ((ensureProgressInitialized s caller).1,
          (ensureProgressInitialized s caller).2)) ∨
    (isLocationCompleted (ensureProgressInitialized s caller).2.completedLocations
        location.sequenceNumber = false ∧
      (location.sequenceNumber < 1 ∨
        location.sequenceNumber >
          (ensureProgressInitialized s caller).2.totalLocations) ∧
      updateProgress s caller locationId seqs = .error .invalidSequenceNumber) ∨
    (isLocationCompleted (ensureProgressInitialized s caller).2.completedLocations
        location.sequenceNumber = false ∧
      1 ≤ location.sequenceNumber ∧
      location.sequenceNumber ≤
        (ensureProgressInitialized s caller).2.totalLocations ∧
      updateProgress s caller locationId seqs =
        .ok (putProgress (ensureProgressInitialized s caller).1 caller
            (appendedProgress (ensureProgressInitialized s caller).2
              location.sequenceNumber seqs),
          appendedProgress (ensureProgressInitialized s caller).2
            location.sequenceNumber seqs)) := by
  by_cases hdup : isLocationCompleted
      (ensureProgressInitialized s caller).2.completedLocations
      location.sequenceNumber = true
  · left
    refine ⟨hdup, ?_⟩
    simp [updateProgress, hperm, hloc, hdup]
  · rw [Bool.not_eq_true] at hdup
    by_cases hrange : location.sequenceNumber < 1 ∨
        location.sequenceNumber >
          (ensureProgressInitialized s caller).2.totalLocations
    · right; left
      refine ⟨hdup, hrange, ?_⟩
      simp only [updateProgress, hperm, Bool.not_true, Bool.false_eq_true,
        if_false, hloc, hdup, if_pos hrange]
    · right; right
      push_neg at hrange
      refine ⟨hdup, hrange.1, hrange.2, ?_⟩
      have hr' : ¬(location.sequenceNumber < 1 ∨
          location.sequenceNumber >
            (ensureProgressInitialized s caller).2.totalLocations) := by
        omega
      simp only [updateProgress, hperm, Bool.not_true, Bool.false_eq_true,
        if_false, hloc, hdup, if_neg hr']
      rfl

/-- Every `updateProgress` message leaves the state unchanged, performs only
the lazy initialization, or appends one in-range sequence number to the
caller's record. -/
theorem runUpdateProgress_cases (s : BackendState) (caller : Principal)
    (locationId : String) (seqs : List Nat) :
    runUpdateProgress s caller locationId seqs = s ∨
    runUpdateProgress s caller locationId seqs =
      (ensureProgressInitialized s caller).1 ∨
    (∃ location, s.storyLocations locationId = some location ∧
      isLocationCompleted (ensureProgressInitialized s caller).2.completedLocations
        location.sequenceNumber = false ∧
      1 ≤ location.sequenceNumber ∧
      location.sequenceNumber ≤
        (ensureProgressInitialized s caller).2.totalLocations ∧
      runUpdateProgress s caller locationId seqs =
        putProgress (ensureProgressInitialized s caller).1 caller
          (appendedProgress (ensureProgressInitialized s caller).2
            location.sequenceNumber seqs)) := by
  by_cases hperm : s.userPermission caller = true
  · cases hloc : s.storyLocations locationId with
    | none =>
        left
        simp [runUpdateProgress, updateProgress, hperm, hloc]
    | some location =>
        rcases updateProgress_resolved s caller locationId seqs location hperm
            hloc with ⟨_, h⟩ | ⟨_, _, h⟩ | ⟨hdup, h1, h2, h⟩
        · right; left
          simp [runUpdateProgress, h]
        · left
          simp [runUpdateProgress, h]
        · right; right
          exact ⟨location, rfl, hdup, h1, h2, by simp [runUpdateProgress, h]⟩
  · left
    have hp : s.userPermission caller = false := by
      cases hval : s.userPermission caller
      · rfl
      · exact absurd hval hperm
    simp [runUpdateProgress, updateProgress, hp]

/-- Every `updateMainProgress` message leaves the state unchanged or stores
the caller's record with one stage flag forced to `true` and every other
field untouched. -/
theorem runUpdateMainProgress_cases (s : BackendState) (caller : Principal)
    (stage : Nat) :
    runUpdateMainProgress s caller stage = s ∨
    runUpdateMainProgress s caller stage =
      putProgress (ensureProgressInitialized s caller).1 caller
        { (ensureProgressInitialized s caller).2 with
          mainProgress :=
            mainFlagSet (ensureProgressInitialized s caller).2.mainProgress
              stage } := by
  by_cases hperm : s.userPermission caller = true
  · by_cases hstage : stage < 1 ∨ stage > 3
    · left
      simp only [runUpdateMainProgress, updateMainProgress, hperm,
        Bool.not_true, Bool.false_eq_true, if_false, if_pos hstage]
    · right
      push_neg at hstage
      have h1 : 1 ≤ stage := hstage.1
      have h3 : stage ≤ 3 := hstage.2
      match stage, h1, h3 with
      | 1, _, _ =>
          simp [runUpdateMainProgress, updateMainProgress, hperm, mainFlagSet]
      | 2, _, _ =>
          simp [runUpdateMainProgress, updateMainProgress, hperm, mainFlagSet]
      | 3, _, _ =>
          simp [runUpdateMainProgress, updateMainProgress, hperm, mainFlagSet]
  · left
    have hp : s.userPermission caller = false := by
      cases hval : s.userPermission caller
      · rfl
      · exact absurd hval hperm
    simp [runUpdateMainProgress, updateMainProgress, hp]

/-- A `getUserProgress` message leaves the state unchanged or performs only
the lazy initialization. -/
theorem runGetUserProgress_cases (s : BackendState) (caller : Principal) :
    runGetUserProgress s caller = s ∨
    runGetUserProgress s caller = (ensureProgressInitialized s caller).1 := by
  by_cases hperm : s.userPermission caller = true
  · right
    simp [runGetUserProgress, getUserProgress, hperm]
  · left
    have hp : s.userPermission caller = false := by
      cases hval : s.userPermission caller
      · rfl
      · exact absurd hval hperm
    simp [runGetUserProgress, getUserProgress, hp]

/-- `initializeLocations` never touches the progress map. -/
theorem runInitializeLocations_userProgress (s : BackendState)
    (caller : Principal) :
    (runInitializeLocations s caller).userProgress = s.userProgress := by
  by_cases h : s.adminPermission caller = true
  · simp [runInitializeLocations, initializeLocations, h]
  · have hp : s.adminPermission caller = false := by
      cases hval : s.adminPermission caller
      · rfl
      · exact absurd hval h
    simp [runInitializeLocations, initializeLocations, hp]

theorem progressSetOf_putProgress_self (s : BackendState) (c : Principal)
    (p : UserProgress) :
    progressSetOf (putProgress s c p) c = p.completedLocations := by
  simp [progressSetOf, putProgress]

theorem progressSetOf_putProgress_other (s : BackendState) (c u : Principal)
    (p : UserProgress) (h : u ≠ c) :
    progressSetOf (putProgress s c p) u = progressSetOf s u := by
  simp [progressSetOf, putProgress, h]

/-- The record `ensureProgressInitialized` returns always carries exactly the
store's completed-locations list for that identity. -/
theorem ensure_snd_completedLocations (s : BackendState) (c : Principal) :
    (ensureProgressInitialized s c).2.completedLocations = progressSetOf s c := by
  rw [ensure_snd]
  cases h : s.userProgress c <;> simp [progressSetOf, h, initialProgress]

theorem progressSetOf_ensure (s : BackendState) (c u : Principal) :
    progressSetOf (ensureProgressInitialized s c).1 u = progressSetOf s u := by
  by_cases hv : u = c
  · subst hv
    rcases ensure_userProgress_cases s u with h | ⟨h1, h2⟩
    · simp [progressSetOf, h]
    · simp [progressSetOf, h1, h2, initialProgress]
  · simp [progressSetOf, ensure_userProgress_other s c u hv]

/-- One backend operation only ever extends an identity's completed-locations
list at its end. -/
theorem progressSetOf_applyOp_isPrefix (s : BackendState) (op : BackendOp)
    (u : Principal) :
    List.IsPrefix (progressSetOf s u) (progressSetOf (applyOp s op) u) := by
  cases op with
  | update caller locationId seqs =>
      rcases runUpdateProgress_cases s caller locationId seqs with
        h | h | ⟨loc, _, _, _, _, h⟩
      · rw [show applyOp s (BackendOp.update caller locationId seqs) =
          runUpdateProgress s caller locationId seqs from rfl, h]
      · rw [show applyOp s (BackendOp.update caller locationId seqs) =
          runUpdateProgress s caller locationId seqs from rfl, h,
          progressSetOf_ensure]
      · rw [show applyOp s (BackendOp.update caller locationId seqs) =
          runUpdateProgress s caller locationId seqs from rfl, h]
        by_cases hu : u = caller
        · subst hu
          rw [progressSetOf_putProgress_self]
          simp only [appendedProgress, ensure_snd_completedLocations]
          exact List.prefix_append _ _
        · rw [progressSetOf_putProgress_other _ _ _ _ hu, progressSetOf_ensure]
  | updateMain caller stage =>
      rcases runUpdateMainProgress_cases s caller stage with h | h
      · rw [show applyOp s (BackendOp.updateMain caller stage) =
          runUpdateMainProgress s caller stage from rfl, h]
      · rw [show applyOp s (BackendOp.updateMain caller stage) =
          runUpdateMainProgress s caller stage from rfl, h]
        by_cases hu : u = caller
        · subst hu
          rw [progressSetOf_putProgress_self]
          simp only [ensure_snd_completedLocations]
          exact List.prefix_refl _
        · rw [progressSetOf_putProgress_other _ _ _ _ hu, progressSetOf_ensure]
  | getProgress caller =>
      rcases runGetUserProgress_cases s caller with h | h
      · rw [show applyOp s (BackendOp.getProgress caller) =
          runGetUserProgress s caller from rfl, h]
      · rw [show applyOp s (BackendOp.getProgress caller) =
          runGetUserProgress s caller from rfl, h, progressSetOf_ensure]
  | initLocations caller =>
      rw [show applyOp s (BackendOp.initLocations caller) =
        runInitializeLocations s caller from rfl]
      simp [progressSetOf, runInitializeLocations_userProgress]

/-- Prefix monotonicity over arbitrary operation sequences. -/
theorem progressSetOf_applyOps_isPrefix (ops : List BackendOp) :
    ∀ (s : BackendState) (u : Principal),
      List.IsPrefix (progressSetOf s u) (progressSetOf (applyOps s ops) u) := by
  induction ops with
  | nil => intro s u; exact List.prefix_refl _
  | cons op rest ih =>
      intro s u
      exact (progressSetOf_applyOp_isPrefix s op u).trans (ih (applyOp s op) u)

/-- Every stored record carries the configured trail size 3. -/
def TotalInv (s : BackendState) : Prop :=
  ∀ u p, s.userProgress u = some p → p.totalLocations = 3

/-- Every stored completed sequence number is within `[1, totalLocations]`. -/
def RangeInv (s : BackendState) : Prop :=
  ∀ u p, s.userProgress u = some p →
    ∀ m ∈ p.completedLocations, 1 ≤ m ∧ m ≤ p.totalLocations

/-- Every stored record's stage flags agree with its completion count. -/
def FlagsInv (s : BackendState) : Prop :=
  ∀ u p, s.userProgress u = some p →
    p.mainProgress.stage1 = decide (p.completedLocations.length ≥ 1) ∧
    p.mainProgress.stage2 = decide (p.completedLocations.length ≥ 2) ∧
    p.mainProgress.stage3 = decide (p.completedLocations.length ≥ 3)

theorem totalInv_putProgress {s : BackendState} {c : Principal}
    {p : UserProgress} (h : TotalInv s) (hp : p.totalLocations = 3) :
    TotalInv (putProgress s c p) := by
  intro u q hq
  simp only [putProgress] at hq
  by_cases hu : u = c
  · simp [hu] at hq
    exact hq ▸ hp
  · simp [hu] at hq
    exact h u q hq

theorem totalInv_ensure {s : BackendState} {c : Principal} (h : TotalInv s) :
    TotalInv (ensureProgressInitialized s c).1 := by
  intro u q hq
  by_cases hu : u = c
  · subst hu
    rcases ensure_userProgress_cases s u with he | ⟨he, _⟩
    · rw [he] at hq
      exact h u q hq
    · rw [he] at hq
      have : q = initialProgress := (Option.some.inj hq).symm
      simp [this, initialProgress]
  · rw [ensure_userProgress_other s c u hu] at hq
    exact h u q hq

theorem ensure_snd_totalLocations {s : BackendState} {c : Principal}
    (h : TotalInv s) :
    (ensureProgressInitialized s c).2.totalLocations = 3 := by
  rw [ensure_snd]
  cases hc : s.userProgress c with
  | some p => simpa using h c p hc
  | none => rfl

theorem totalInv_applyOp {s : BackendState} (h : TotalInv s) (op : BackendOp) :
    TotalInv (applyOp s op) := by
  cases op with
  | update caller locationId seqs =>
      rcases runUpdateProgress_cases s caller locationId seqs with
        hc | hc | ⟨loc, _, _, _, _, hc⟩
      · rw [show applyOp s (BackendOp.update caller locationId seqs) =
          runUpdateProgress s caller locationId seqs from rfl, hc]
        exact h
      · rw [show applyOp s (BackendOp.update caller locationId seqs) =
          runUpdateProgress s caller locationId seqs from rfl, hc]
        exact totalInv_ensure h
      · rw [show applyOp s (BackendOp.update caller locationId seqs) =
          runUpdateProgress s caller locationId seqs from rfl, hc]
        refine totalInv_putProgress (totalInv_ensure h) ?_
        simp [appendedProgress, ensure_snd_totalLocations h]
  | updateMain caller stage =>
      rcases runUpdateMainProgress_cases s caller stage with hc | hc
      · rw [show applyOp s (BackendOp.updateMain caller stage) =
          runUpdateMainProgress s caller stage from rfl, hc]
        exact h
      · rw [show applyOp s (BackendOp.updateMain caller stage) =
          runUpdateMainProgress s caller stage from rfl, hc]
        exact totalInv_putProgress (totalInv_ensure h)
          (by simp [ensure_snd_totalLocations h])
  | getProgress caller =>
      rcases runGetUserProgress_cases s caller with hc | hc
      · rw [show applyOp s (BackendOp.getProgress caller) =
          runGetUserProgress s caller from rfl, hc]
        exact h
      · rw [show applyOp s (BackendOp.getProgress caller) =
          runGetUserProgress s caller from rfl, hc]
        exact totalInv_ensure h
  | initLocations caller =>
      intro u p hp
      rw [show applyOp s (BackendOp.initLocations caller) =
        runInitializeLocations s caller from rfl,
        runInitializeLocations_userProgress] at hp
      exact h u p hp

/-- Every reachable state stores only records with `totalLocations = 3`. -/
theorem reachable_totalInv {s : BackendState} (h : Reachable s) : TotalInv s := by
  induction h with
  | init locs up ap => intro u p hp; simp [initState] at hp
  | step op _ ih => exact totalInv_applyOp ih op

theorem ensure_snd_range {s : BackendState} {c : Principal} (h : RangeInv s) :
    ∀ m ∈ (ensureProgressInitialized s c).2.completedLocations,
      1 ≤ m ∧ m ≤ (ensureProgressInitialized s c).2.totalLocations := by
  rw [ensure_snd]
  cases hc : s.userProgress c with
  | some p => simpa using h c p hc
  | none => simp [initialProgress]

theorem rangeInv_putProgress {s : BackendState} {c : Principal}
    {p : UserProgress} (h : RangeInv s)
    (hp : ∀ m ∈ p.completedLocations, 1 ≤ m ∧ m ≤ p.totalLocations) :
    RangeInv (putProgress s c p) := by
  intro u q hq
  simp only [putProgress] at hq
  by_cases hu : u = c
  · simp [hu] at hq
    exact hq ▸ hp
  · simp [hu] at hq
    exact h u q hq

theorem rangeInv_ensure {s : BackendState} {c : Principal} (h : RangeInv s) :
    RangeInv (ensureProgressInitialized s c).1 := by
  intro u q hq
  by_cases hu : u = c
  · subst hu
    rcases ensure_userProgress_cases s u with he | ⟨he, _⟩
    · rw [he] at hq
      exact h u q hq
    · rw [he] at hq
      have : q = initialProgress := (Option.some.inj hq).symm
      simp [this, initialProgress]
  · rw [ensure_userProgress_other s c u hu] at hq
    exact h u q hq

theorem rangeInv_applyOp {s : BackendState} (h : RangeInv s) (op : BackendOp) :
    RangeInv (applyOp s op) := by
  cases op with
  | update caller locationId seqs =>
      rcases runUpdateProgress_cases s caller locationId seqs with
        hc | hc | ⟨loc, _, _, hlo, hhi, hc⟩
      · rw [show applyOp s (BackendOp.update caller locationId seqs) =
          runUpdateProgress s caller locationId seqs from rfl, hc]
        exact h
      · rw [show applyOp s (BackendOp.update caller locationId seqs) =
          runUpdateProgress s caller locationId seqs from rfl, hc]
        exact rangeInv_ensure h
      · rw [show applyOp s (BackendOp.update caller locationId seqs) =
          runUpdateProgress s caller locationId seqs from rfl, hc]
        refine rangeInv_putProgress (rangeInv_ensure h) ?_
        intro m hm
        simp only [appendedProgress, List.mem_append, List.mem_singleton] at hm
        rcases hm with hm | hm
        · simpa [appendedProgress] using ensure_snd_range h m hm
        · subst hm
          simp [appendedProgress]
          omega
  | updateMain caller stage =>
      rcases runUpdateMainProgress_cases s caller stage with hc | hc
      · rw [show applyOp s (BackendOp.updateMain caller stage) =
          runUpdateMainProgress s caller stage from rfl, hc]
        exact h
      · rw [show applyOp s (BackendOp.updateMain caller stage) =
          runUpdateMainProgress s caller stage from rfl, hc]
        refine rangeInv_putProgress (rangeInv_ensure h) ?_
        intro m hm
        simp only at hm
        simpa using ensure_snd_range h m (by simpa using hm)
  | getProgress caller =>
      rcases runGetUserProgress_cases s caller with hc | hc
      · rw [show applyOp s (BackendOp.getProgress caller) =
          runGetUserProgress s caller from rfl, hc]
        exact h
      · rw [show applyOp s (BackendOp.getProgress caller) =
          runGetUserProgress s caller from rfl, hc]
        exact rangeInv_ensure h
  | initLocations caller =>
      intro u p hp
      rw [show applyOp s (BackendOp.initLocations caller) =
        runInitializeLocations s caller from rfl,
        runInitializeLocations_userProgress] at hp
      exact h u p hp

/-- Every reachable state stores only in-range sequence numbers. -/
theorem reachable_rangeInv {s : BackendState} (h : Reachable s) : RangeInv s := by
  induction h with
  | init locs up ap => intro u p hp; simp [initState] at hp
  | step op _ ih => exact rangeInv_applyOp ih op

/-- States reachable using every backend operation except
`updateMainProgress`. -/
inductive ReachableNoMainUpdate : BackendState → Prop where
  | init (storyLocations : String → Option StoryLocation)
      (up ap : Principal → Bool) :
      ReachableNoMainUpdate (initState storyLocations up ap)
  | stepUpdate {s : BackendState} (caller : Principal) (locationId : String)
      (seqs : List Nat) :
      ReachableNoMainUpdate s →
      ReachableNoMainUpdate (runUpdateProgress s caller locationId seqs)
  | stepGet {s : BackendState} (caller : Principal) :
      ReachableNoMainUpdate s →
      ReachableNoMainUpdate (runGetUserProgress s caller)
  | stepInit {s : BackendState} (caller : Principal) :
      ReachableNoMainUpdate s →
      ReachableNoMainUpdate (runInitializeLocations s caller)

theorem flagsInv_putProgress {s : BackendState} {c : Principal}
    {p : UserProgress} (h : FlagsInv s)
    (hp : p.mainProgress.stage1 = decide (p.completedLocations.length ≥ 1) ∧
      p.mainProgress.stage2 = decide (p.completedLocations.length ≥ 2) ∧
      p.mainProgress.stage3 = decide (p.completedLocations.length ≥ 3)) :
    FlagsInv (putProgress s c p) := by
  intro u q hq
  simp only [putProgress] at hq
  by_cases hu : u = c
  · simp [hu] at hq
    exact hq ▸ hp
  · simp [hu] at hq
    exact h u q hq

theorem flagsInv_ensure {s : BackendState} {c : Principal} (h : FlagsInv s) :
    FlagsInv (ensureProgressInitialized s c).1 := by
  intro u q hq
  by_cases hu : u = c
  · subst hu
    rcases ensure_userProgress_cases s u with he | ⟨he, _⟩
    · rw [he] at hq
      exact h u q hq
    · rw [he] at hq
      have : q = initialProgress := (Option.some.inj hq).symm
      simp [this, initialProgress]
  · rw [ensure_userProgress_other s c u hu] at hq
    exact h u q hq

theorem flagsInv_runUpdateProgress {s : BackendState} (h : FlagsInv s)
    (caller : Principal) (locationId : String) (seqs : List Nat) :
    FlagsInv (runUpdateProgress s caller locationId seqs) := by
  rcases runUpdateProgress_cases s caller locationId seqs with
    hc | hc | ⟨loc, _, _, _, _, hc⟩
  · rw [hc]; exact h
  · rw [hc]; exact flagsInv_ensure h
  · rw [hc]
    refine flagsInv_putProgress (flagsInv_ensure h) ?_
    simp [appendedProgress]

theorem flagsInv_runGetUserProgress {s : BackendState} (h : FlagsInv s)
    (caller : Principal) :
    FlagsInv (runGetUserProgress s caller) := by
  rcases runGetUserProgress_cases s caller with hc | hc
  · rw [hc]; exact h
  · rw [hc]; exact flagsInv_ensure h

theorem flagsInv_runInitializeLocations {s : BackendState} (h : FlagsInv s)
    (caller : Principal) :
    FlagsInv (runInitializeLocations s caller) := by
  intro u p hp
  rw [runInitializeLocations_userProgress] at hp
  exact h u p hp

/-- The stage flags agree with the completion count in every state reachable
without `updateMainProgress`. -/
theorem reachableNoMainUpdate_flagsInv {s : BackendState}
    (h : ReachableNoMainUpdate s) : FlagsInv s := by
  induction h with
  | init locs up ap => intro u p hp; simp [initState] at hp
  | stepUpdate caller locationId seqs _ ih =>
      exact flagsInv_runUpdateProgress ih caller locationId seqs
  | stepGet caller _ ih => exact flagsInv_runGetUserProgress ih caller
  | stepInit caller _ ih => exact flagsInv_runInitializeLocations ih caller

/-- Decoding is unaffected by the `synced`/`timestamp` bookkeeping fields. -/
theorem decodeStoredProgress_mark (sp : StoredProgress) (b : Bool) (t : Nat) :
    decodeStoredProgress { sp with synced := b, timestamp := t } =
      decodeStoredProgress sp := rfl

/-- Saving then decoding restores the record exactly. -/
theorem decodeStoredProgress_save (p : UserProgress) (now : Nat) :
    decodeStoredProgress (saveProgressToLocalStorage p now) = p := by
  cases p with
  | mk last comp seqs total mp =>
      simp [decodeStoredProgress, saveProgressToLocalStorage,
        decimalDigitsToNat_natToDecimalDigits, List.map_map, Function.comp_def]

/-- The authoritative write for an authorized caller, a resolving location id
and an in-range sequence number always succeeds and leaves the sequence
number in the caller's stored record. -/
theorem updateProgress_healthy (s : BackendState) (caller : Principal)
    (locationId : String) (seqs : List Nat) (location : StoryLocation)
    (hperm : s.userPermission caller = true)
    (hloc : s.storyLocations locationId = some location)
    (hlo : 1 ≤ location.sequenceNumber)
    (hhi : location.sequenceNumber ≤
      (ensureProgressInitialized s caller).2.totalLocations) :
    ∃ s' p, updateProgress s caller locationId seqs = .ok (s', p) ∧
      runUpdateProgress s caller locationId seqs = s' ∧
      location.sequenceNumber ∈ progressSetOf s' caller := by
  rcases updateProgress_resolved s caller locationId seqs location hperm hloc
    with ⟨hdup, h⟩ | ⟨_, hrange, _⟩ | ⟨_, _, _, h⟩
  · refine ⟨_, _, h, by simp [runUpdateProgress, h], ?_⟩
    have hmem := (isLocationCompleted_iff_mem _ _).mp hdup
    rw [ensure_snd_completedLocations] at hmem
    have hself := ensure_userProgress_self (s := s) (u := caller) hperm
    simp only [progressSetOf, hself]
    rwa [ensure_snd_completedLocations]
  · omega
  · refine ⟨_, _, h, by simp [runUpdateProgress, h], ?_⟩
    rw [progressSetOf_putProgress_self]
    simp [appendedProgress]

/-- One step of the replay loop preserves every identity's completed list as
a prefix. -/
theorem syncLocationsLoop_isPrefix (caller : Principal) (seqs : List Nat) :
    ∀ (locs : List Nat) (server : BackendState) (u : Principal),
      List.IsPrefix (progressSetOf server u)
        (progressSetOf (syncLocationsLoop server caller locs seqs).1 u) := by
  intro locs
  induction locs with
  | nil => intro server u; exact List.prefix_refl _
  | cons m rest ih =>
      intro server u
      simp only [syncLocationsLoop]
      cases hw : updateProgress server caller ("location_" ++ toString m) seqs with
      | error e => exact List.prefix_refl _
      | ok result =>
          have hrun : runUpdateProgress server caller
              ("location_" ++ toString m) seqs = result.1 := by
            simp [runUpdateProgress, hw]
          have hstep := progressSetOf_applyOp_isPrefix server
            (BackendOp.update caller ("location_" ++ toString m) seqs) u
          rw [show applyOp server
              (BackendOp.update caller ("location_" ++ toString m) seqs) =
              runUpdateProgress server caller ("location_" ++ toString m) seqs
              from rfl, hrun] at hstep
          exact hstep.trans (ih result.1 u)

/-- Stable backend fields across the replay loop, and its success analysis
under a healthy store: every requested location is written (or already
present) and the loop reports success with the full write trace. -/
theorem syncLocationsLoop_healthy (caller : Principal) (seqs : List Nat) :
    ∀ (locs : List Nat) (server : BackendState),
      server.userPermission caller = true →
      TotalInv server →
      (∀ m ∈ locs, ∃ loc,
        server.storyLocations ("location_" ++ toString m) = some loc ∧
        loc.sequenceNumber = m ∧ 1 ≤ m ∧ m ≤ 3) →
      (syncLocationsLoop server caller locs seqs).2.1 = true ∧
      (∀ m ∈ locs,
        m ∈ progressSetOf (syncLocationsLoop server caller locs seqs).1 caller) ∧
      (syncLocationsLoop server caller locs seqs).2.2 =
        locs.map (fun m => "location_" ++ toString m) := by
  intro locs
  induction locs with
  | nil => intro server _ _ _; exact ⟨rfl, by simp, rfl⟩
  | cons m rest ih =>
      intro server hperm htotal hres
      obtain ⟨loc, hlook, hseq, hlo, hhi⟩ := hres m (by simp)
      have hhi' : loc.sequenceNumber ≤
          (ensureProgressInitialized server caller).2.totalLocations := by
        rw [ensure_snd_totalLocations htotal]
        omega
      obtain ⟨s', p, hw, hrun, hmem⟩ := updateProgress_healthy server caller
        ("location_" ++ toString m) seqs loc hperm hlook (hseq ▸ hlo) hhi'
      have hperm' : s'.userPermission caller = true := by
        have := congrArg (fun s : BackendState => s.userPermission caller)
          hrun.symm
        simpa [show applyOp server
            (BackendOp.update caller ("location_" ++ toString m) seqs) =
            runUpdateProgress server caller ("location_" ++ toString m) seqs
            from rfl] using
          (by
            rcases runUpdateProgress_cases server caller
                ("location_" ++ toString m) seqs with hc | hc | ⟨_, _, _, _, _, hc⟩ <;>
              rw [hrun] at hc <;> rw [hc] <;>
              simp [ensure_userPermission, putProgress_userPermission, hperm])
      have htotal' : TotalInv s' := by
        have := totalInv_applyOp htotal
          (BackendOp.update caller ("location_" ++ toString m) seqs)
        rwa [show applyOp server
            (BackendOp.update caller ("location_" ++ toString m) seqs) =
            runUpdateProgress server caller ("location_" ++ toString m) seqs
            from rfl, hrun] at this
      have hlocs' : s'.storyLocations = server.storyLocations := by
        rcases runUpdateProgress_cases server caller
            ("location_" ++ toString m) seqs with hc | hc | ⟨_, _, _, _, _, hc⟩ <;>
          rw [hrun] at hc <;> rw [hc] <;>
          simp [ensure_storyLocations, putProgress_storyLocations]
      have hres' : ∀ k ∈ rest, ∃ loc,
          s'.storyLocations ("location_" ++ toString k) = some loc ∧
          loc.sequenceNumber = k ∧ 1 ≤ k ∧ k ≤ 3 := by
        intro k hk
        rw [hlocs']
        exact hres k (by simp [hk])
      obtain ⟨hok, hmems, htrace⟩ := ih s' hperm' htotal' hres'
      have hloop : syncLocationsLoop server caller (m :: rest) seqs =
          ((syncLocationsLoop s' caller rest seqs).1,
            (syncLocationsLoop s' caller rest seqs).2.1,
            ("location_" ++ toString m) ::
              (syncLocationsLoop s' caller rest seqs).2.2) := by
        simp [syncLocationsLoop, hw]
      refine ⟨by rw [hloop]; exact hok, ?_, by rw [hloop]; simp [htrace]⟩
      intro k hk
      rw [hloop]
      rcases List.mem_cons.mp hk with hk | hk
      · subst hk
        exact (syncLocationsLoop_isPrefix caller seqs rest s' caller).subset
          (hseq ▸ hmem)
      · exact hmems k hk

/-- A successful `getUserProgress` call is exactly the lazy read of an
authorized caller. -/
theorem getUserProgress_ok {s : BackendState} {caller : Principal}
    {v : BackendState × UserProgress}
    (h : getUserProgress s caller = .ok v) :
    v = ensureProgressInitialized s caller ∧
      s.userPermission caller = true := by
  by_cases hp : s.userPermission caller = true
  · simp only [getUserProgress, hp, Bool.not_true, Bool.false_eq_true,
      if_false, Except.ok.injEq] at h
    exact ⟨h.symm, hp⟩
  · have hf : s.userPermission caller = false := by
      cases hval : s.userPermission caller
      · rfl
      · exact absurd hval hp
    simp [getUserProgress, hf] at h

/-- One reconciliation pass never shrinks any identity's server-side
completed list. -/
theorem syncUnsyncedProgress_server_isPrefix (server : BackendState)
    (caller : Principal) (store : Option StoredProgress) (u : Principal) :
    List.IsPrefix (progressSetOf server u)
      (progressSetOf (syncUnsyncedProgress server caller store).server u) := by
  unfold syncUnsyncedProgress
  by_cases h0 : (!hasUnsyncedProgress store) = true
  · rw [if_pos h0]
  · rw [if_neg h0]
    cases hload : loadProgressFromLocalStorage store with
    | none => exact List.prefix_refl _
    | some cachedProgress =>
        cases hget : getUserProgress server caller with
        | error e => exact List.prefix_refl _
        | ok v =>
            obtain ⟨server₁, backendProgress⟩ := v
            obtain ⟨hv, hperm⟩ := getUserProgress_ok hget
            have hfst : server₁ = (ensureProgressInitialized server caller).1 :=
              congrArg Prod.fst hv
            have hens : progressSetOf (ensureProgressInitialized server caller).1 u
                = progressSetOf server u := progressSetOf_ensure server caller u
            have h1 : List.IsPrefix (progressSetOf server u)
                (progressSetOf server₁ u) := by
              rw [hfst, hens]
            simp only []
            split
            · exact h1
            · split
              · exact h1.trans (syncLocationsLoop_isPrefix caller
                  cachedProgress.currentSequences _ server₁ u)
              · exact h1.trans (syncLocationsLoop_isPrefix caller
                  cachedProgress.currentSequences _ server₁ u)

/-- Whenever `syncUnsyncedProgress` reports failure, the cached record is
left untouched (in particular still unsynced). -/
theorem syncUnsyncedProgress_store_of_not_ok (server : BackendState)
    (caller : Principal) (store : Option StoredProgress) :
    (syncUnsyncedProgress server caller store).ok = false →
    (syncUnsyncedProgress server caller store).store = store := by
  unfold syncUnsyncedProgress
  split
  · intro h; simp at h
  · split
    · intro h; simp at h
    · split
      · intro _; rfl
      · dsimp only
        split
        · intro h; simp at h
        · split
          · intro h; simp at h
          · intro _; rfl

/-- Success analysis of one reconciliation pass against a healthy store: the
pass succeeds, marks the cache synced, attempts exactly the writes for the
cached-but-absent locations, and every cached location ends up in the
server-side record. -/
theorem syncUnsyncedProgress_healthy (server : BackendState)
    (caller : Principal) (sp : StoredProgress)
    (hsynced : sp.synced = false)
    (hperm : server.userPermission caller = true)
    (htotal : TotalInv server)
    (hres : ∀ m ∈ (decodeStoredProgress sp).completedLocations, ∃ loc,
      server.storyLocations ("location_" ++ toString m) = some loc ∧
      loc.sequenceNumber = m ∧ 1 ≤ m ∧ m ≤ 3) :
    (syncUnsyncedProgress server caller (some sp)).ok = true ∧
    (syncUnsyncedProgress server caller (some sp)).store =
      markStoredSynced (some sp) ∧
    (∀ m ∈ (decodeStoredProgress sp).completedLocations,
      m ∈ progressSetOf (syncUnsyncedProgress server caller (some sp)).server
        caller) ∧
    (syncUnsyncedProgress server caller (some sp)).writes =
      ((decodeStoredProgress sp).completedLocations.filter
        (fun loc =>
          !((ensureProgressInitialized server caller).2.completedLocations.any
            (fun bLoc => bLoc == loc)))).map
        (fun m => "location_" ++ toString m) := by
  have h0 : hasUnsyncedProgress (some sp) = true := by
    simp [hasUnsyncedProgress, hsynced]
  have hget : getUserProgress server caller =
      .ok (ensureProgressInitialized server caller) := by
    simp [getUserProgress, hperm]
  have hsync : syncUnsyncedProgress server caller (some sp) =
      (let cachedProgress := decodeStoredProgress sp
       let backendProgress := (ensureProgressInitialized server caller).2
       let server₁ := (ensureProgressInitialized server caller).1
       let newLocations := cachedProgress.completedLocations.filter
         (fun loc => !(backendProgress.completedLocations.any
           (fun bLoc => bLoc == loc)))
       if newLocations.isEmpty then
         { server := server₁, store := markStoredSynced (some sp)
           ok := true, writes := [] }
       else
         let r := syncLocationsLoop server₁ caller newLocations
           cachedProgress.currentSequences
         if r.2.1 then
           { server := r.1, store := markStoredSynced (some sp)
             ok := true, writes := r.2.2 }
         else
           { server := r.1, store := some sp, ok := false
             writes := r.2.2 }) := by
    unfold syncUnsyncedProgress
    rw [h0, hget]
    rfl
  set cachedList := (decodeStoredProgress sp).completedLocations with hcl
  set backendList :=
    (ensureProgressInitialized server caller).2.completedLocations with hbl
  set newLocations := cachedList.filter
    (fun loc => !(backendList.any (fun bLoc => bLoc == loc))) with hnl
  have hmem_backend : ∀ m, m ∈ backendList ↔ m ∈ progressSetOf server caller := by
    intro m
    rw [hbl, ensure_snd_completedLocations]
  by_cases hempty : newLocations.isEmpty = true
  · have hres_eq : syncUnsyncedProgress server caller (some sp) =
        { server := (ensureProgressInitialized server caller).1
          store := markStoredSynced (some sp), ok := true, writes := [] } := by
      rw [hsync]
      simp only []
      rw [if_pos hempty]
    have hfilter_nil : newLocations = [] := by
      simpa using hempty
    refine ⟨by rw [hres_eq], by rw [hres_eq], ?_, ?_⟩
    · intro m hm
      have hpred : ¬((!(backendList.any (fun bLoc => bLoc == m))) = true) := by
        intro hp
        have : m ∈ newLocations := List.mem_filter.mpr ⟨hm, hp⟩
        simp [hfilter_nil] at this
      have hmb : m ∈ backendList := by
        simp only [Bool.not_eq_true', Bool.not_eq_false] at hpred
        rcases List.any_eq_true.mp hpred with ⟨x, hx, hxe⟩
        rwa [beq_iff_eq.mp hxe] at hx
      rw [hres_eq]
      simp only []
      rw [progressSetOf_ensure]
      exact (hmem_backend m).mp hmb
    · rw [hres_eq]
      simp [← hnl, hfilter_nil]
  · have hloop := syncLocationsLoop_healthy caller
      (decodeStoredProgress sp).currentSequences newLocations
      (ensureProgressInitialized server caller).1
      (by rw [ensure_userPermission]; exact hperm)
      (totalInv_ensure htotal)
      (by
        intro m hm
        rw [ensure_storyLocations]
        exact hres m (List.mem_filter.mp hm).1)
    have hres_eq : syncUnsyncedProgress server caller (some sp) =
        { server := (syncLocationsLoop (ensureProgressInitialized server caller).1
            caller newLocations (decodeStoredProgress sp).currentSequences).1
          store := markStoredSynced (some sp), ok := true
          writes := (syncLocationsLoop (ensureProgressInitialized server caller).1
            caller newLocations (decodeStoredProgress sp).currentSequences).2.2 } := by
      rw [hsync]
      simp only []
      rw [if_neg hempty, if_pos hloop.1]
    refine ⟨by rw [hres_eq], by rw [hres_eq], ?_, ?_⟩
    · intro m hm
      rw [hres_eq]
      simp only []
      by_cases hpred : (!(backendList.any (fun bLoc => bLoc == m))) = true
      · exact hloop.2.1 m (List.mem_filter.mpr ⟨hm, hpred⟩)
      · have hmb : m ∈ backendList := by
          simp only [Bool.not_eq_true', Bool.not_eq_false] at hpred
          rcases List.any_eq_true.mp hpred with ⟨x, hx, hxe⟩
          rwa [beq_iff_eq.mp hxe] at hx
        have hm1 : m ∈ progressSetOf
            (ensureProgressInitialized server caller).1 caller := by
          rw [progressSetOf_ensure]
          exact (hmem_backend m).mp hmb
        exact (syncLocationsLoop_isPrefix caller
          (decodeStoredProgress sp).currentSequences newLocations
          (ensureProgressInitialized server caller).1 caller).subset hm1
    · rw [hres_eq]
      simp only []
      exact hloop.2.2

/-- The completed-locations list the client decodes from its cache (the
default record when nothing is cached) — the `currentProgress` the mutation
fallback starts from. -/
def cacheCompletedOf (store : Option StoredProgress) : List Nat :=
  ((loadProgressFromLocalStorage store).getD
    clientDefaultProgress).completedLocations

/-- The optimistic update always leaves the completed location in the query
cache entry. -/
theorem optimisticUpdate_mem (p : UserProgress) (locationId : String) :
    clientLocationNumber locationId ∈
      (optimisticUpdate p locationId).completedLocations := by
  by_cases h : clientLocationNumber locationId ∈ p.completedLocations <;>
    simp [optimisticUpdate, h]

/-- The network-error fallback on a cache that does not yet hold the
location: it stores the appended record and marks it unsynced. -/
theorem mutationFnNetworkFallback_new (store : Option StoredProgress)
    (locationId : String) (sequences : List Nat) (now : Nat)
    (h : clientLocationNumber locationId ∉ cacheCompletedOf store) :
    ∃ sp, mutationFnNetworkFallback store locationId sequences now = some sp ∧
      sp.synced = false ∧
      (decodeStoredProgress sp).completedLocations =
        cacheCompletedOf store ++ [clientLocationNumber locationId] ∧
      (decodeStoredProgress sp).lastCompletedLocation =
        clientLocationNumber locationId := by
  have h' : clientLocationNumber locationId ∉
      ((loadProgressFromLocalStorage store).getD
        clientDefaultProgress).completedLocations := h
  unfold mutationFnNetworkFallback
  rw [if_neg h']
  simp only [markProgressAsUnsynced, Option.map_some']
  refine ⟨_, rfl, rfl, ?_, ?_⟩
  · rw [decodeStoredProgress_mark, decodeStoredProgress_save]
    rfl
  · rw [decodeStoredProgress_mark, decodeStoredProgress_save]

/-- The network-error fallback on a cache already holding the location is a
no-op on the cache. -/
theorem mutationFnNetworkFallback_old (store : Option StoredProgress)
    (locationId : String) (sequences : List Nat) (now : Nat)
    (h : clientLocationNumber locationId ∈ cacheCompletedOf store) :
    mutationFnNetworkFallback store locationId sequences now = store := by
  have h' : clientLocationNumber locationId ∈
      ((loadProgressFromLocalStorage store).getD
        clientDefaultProgress).completedLocations := h
  unfold mutationFnNetworkFallback
  rw [if_pos h']

/-- After at least one failing attempt of a network outage, the cache holds
the appended record, marked unsynced; further failing attempts change
nothing. -/
theorem networkOutageLocalStoreAfter_spec (store : Option StoredProgress)
    (locationId : String) (sequences : List Nat) (now : Nat) :
    ∀ k, 1 ≤ k →
      clientLocationNumber locationId ∉ cacheCompletedOf store →
      ∃ sp, networkOutageLocalStoreAfter store locationId sequences now k =
          some sp ∧
        sp.synced = false ∧
        (decodeStoredProgress sp).completedLocations =
          cacheCompletedOf store ++ [clientLocationNumber locationId] := by
  intro k
  induction k with
  | zero => omega
  | succ k ih =>
      intro _ hnew
      by_cases hk : 1 ≤ k
      · obtain ⟨sp, hsp, hsync, hcomp⟩ := ih hk hnew
        refine ⟨sp, ?_, hsync, hcomp⟩
        simp only [networkOutageLocalStoreAfter, hsp]
        apply mutationFnNetworkFallback_old
        unfold cacheCompletedOf loadProgressFromLocalStorage
        simp only [Option.map_some', Option.getD_some]
        rw [hcomp]
        simp
      · have hk0 : k = 0 := by omega
        subst hk0
        obtain ⟨sp, hsp, hsync, hcomp, _⟩ :=
          mutationFnNetworkFallback_new store locationId sequences now hnew
        exact ⟨sp, hsp, hsync, hcomp⟩

/-- C3: the authoritative write is idempotent.  For every state, caller and
location whose sequence number is already in the caller's
`completedLocations`, `updateProgress` is a no-op that returns the unchanged
record via `Except.ok` (not an error); and replaying the same write twice
from any state yields exactly the state a single write yields (hence the same
final `completedLocations` set). -/
theorem C3_authoritative_write_idempotent (s : BackendState)
    (caller : Principal) (locationId : String) (seqs : List Nat) :
    (∀ location, s.userPermission caller = true →
      s.storyLocations locationId = some location →
      location.sequenceNumber ∈
        (ensureProgressInitialized s caller).2.completedLocations →
      updateProgress s caller locationId seqs =
        .ok ((ensureProgressInitialized s caller).1,
          (ensureProgressInitialized s caller).2)) ∧
    runUpdateProgress (runUpdateProgress s caller locationId seqs) caller
      locationId seqs = runUpdateProgress s caller locationId seqs := by
  constructor
  · intro location hperm hloc hmem
    have hdup : isLocationCompleted
        (ensureProgressInitialized s caller).2.completedLocations
        location.sequenceNumber = true :=
      (isLocationCompleted_iff_mem _ _).mpr hmem
    rcases updateProgress_resolved s caller locationId seqs location hperm hloc
      with ⟨_, h⟩ | ⟨hd, _, _⟩ | ⟨hd, _, _, _⟩
    · exact h
    · rw [hdup] at hd; cases hd
    · rw [hdup] at hd; cases hd
  · by_cases hperm : s.userPermission caller = true
    · cases hloc : s.storyLocations locationId with
      | none =>
          have h1 : runUpdateProgress s caller locationId seqs = s := by
            simp [runUpdateProgress, updateProgress, hperm, hloc]
          rw [h1]
          exact h1
      | some location =>
          rcases updateProgress_resolved s caller locationId seqs location
            hperm hloc with ⟨hdup, h⟩ | ⟨_, _, h⟩ | ⟨hdup, hlo, hhi, h⟩
          · have h1 : runUpdateProgress s caller locationId seqs =
                (ensureProgressInitialized s caller).1 := by
              simp [runUpdateProgress, h]
            rw [h1]
            have hself := ensure_userProgress_self (s := s) (u := caller) hperm
            have hens : ensureProgressInitialized
                (ensureProgressInitialized s caller).1 caller =
                ((ensureProgressInitialized s caller).1,
                  (ensureProgressInitialized s caller).2) :=
              ensure_of_some hself
            have hperm' : (ensureProgressInitialized s caller).1.userPermission
                caller = true := by
              rw [ensure_userPermission]; exact hperm
            have hloc' : (ensureProgressInitialized s caller).1.storyLocations
                locationId = some location := by
              rw [ensure_storyLocations]; exact hloc
            rcases updateProgress_resolved
              (ensureProgressInitialized s caller).1 caller locationId seqs
              location hperm' hloc' with ⟨_, h2⟩ | ⟨hd2, _, _⟩ | ⟨hd2, _, _, _⟩
            · rw [hens] at h2
              simp [runUpdateProgress, h2]
            · rw [hens] at hd2
              simp only [] at hd2
              rw [hdup] at hd2
              cases hd2
            · rw [hens] at hd2
              simp only [] at hd2
              rw [hdup] at hd2
              cases hd2
          · have h1 : runUpdateProgress s caller locationId seqs = s := by
              simp [runUpdateProgress, h]
            rw [h1]
            exact h1
          · have h1 : runUpdateProgress s caller locationId seqs =
                putProgress (ensureProgressInitialized s caller).1 caller
                  (appendedProgress (ensureProgressInitialized s caller).2
                    location.sequenceNumber seqs) := by
              simp [runUpdateProgress, h]
            rw [h1]
            have hself : (putProgress (ensureProgressInitialized s caller).1
                caller (appendedProgress (ensureProgressInitialized s caller).2
                  location.sequenceNumber seqs)).userProgress caller =
                some (appendedProgress (ensureProgressInitialized s caller).2
                  location.sequenceNumber seqs) :=
              putProgress_userProgress_self _ _ _
            have hens := ensure_of_some hself
            have hperm' : (putProgress (ensureProgressInitialized s caller).1
                caller (appendedProgress (ensureProgressInitialized s caller).2
                  location.sequenceNumber seqs)).userPermission caller =
                true := by
              rw [putProgress_userPermission, ensure_userPermission]
              exact hperm
            have hloc' : (putProgress (ensureProgressInitialized s caller).1
                caller (appendedProgress (ensureProgressInitialized s caller).2
                  location.sequenceNumber seqs)).storyLocations locationId =
                some location := by
              rw [putProgress_storyLocations, ensure_storyLocations]
              exact hloc
            have hmem2 : location.sequenceNumber ∈
                (appendedProgress (ensureProgressInitialized s caller).2
                  location.sequenceNumber seqs).completedLocations := by
              simp [appendedProgress]
            rcases updateProgress_resolved _ caller locationId seqs location
              hperm' hloc' with ⟨_, h2⟩ | ⟨hd2, _, _⟩ | ⟨hd2, _, _, _⟩
            · rw [hens] at h2
              simp [runUpdateProgress, h2]
            · rw [hens] at hd2
              simp only [] at hd2
              rw [(isLocationCompleted_iff_mem _ _).mpr hmem2] at hd2
              cases hd2
            · rw [hens] at hd2
              simp only [] at hd2
              rw [(isLocationCompleted_iff_mem _ _).mpr hmem2] at hd2
              cases hd2
    · have hp : s.userPermission caller = false := by
        cases hval : s.userPermission caller
        · rfl
        · exact absurd hval hperm
      have h1 : runUpdateProgress s caller locationId seqs = s := by
        simp [runUpdateProgress, updateProgress, hp]
      rw [h1]
      exact h1

/-- The state used to witness C3: identity 0 has already completed sequence
number 1 and `location_1` resolves to it. -/
def c3WitnessState : BackendState :=
  { userProgress := fun u =>
      if u = 0 then
        some { lastCompletedLocation := 1, completedLocations := [1]
               currentSequences := [], totalLocations := 3
               mainProgress :=
                 { stage1 := true, stage2 := false, stage3 := false } }
      else none
    storyLocations := fun id => if id = "location_1" then some location1 else none
    userPermission := fun _ => true
    adminPermission := fun _ => true }

/-- Witness for C3 at a concrete state: the duplicate write succeeds with the
unchanged record and the double write equals the single write. -/
theorem C3_witness :
    updateProgress c3WitnessState 0 "location_1" [] =
      .ok ((ensureProgressInitialized c3WitnessState 0).1,
        (ensureProgressInitialized c3WitnessState 0).2) ∧
    runUpdateProgress (runUpdateProgress c3WitnessState 0 "location_1" []) 0
      "location_1" [] = runUpdateProgress c3WitnessState 0 "location_1" [] :=
  ⟨(C3_authoritative_write_idempotent c3WitnessState 0 "location_1" []).1
      location1 rfl (by simp [c3WitnessState]) (by decide),
    (C3_authoritative_write_idempotent c3WitnessState 0 "location_1" []).2⟩

/-- C4: out-of-range rejection.  In every reachable state, an authoritative
write whose resolved sequence number lies outside `[1, totalLocations]` (in
particular 0 and `totalLocations + 1`) fails with the out-of-range trap (the
spec's `InvalidLocation`) and leaves the state — hence the identity's
progress record — unchanged. -/
theorem C4_out_of_range_rejection (s : BackendState) (caller : Principal)
    (locationId : String) (seqs : List Nat) (location : StoryLocation)
    (hreach : Reachable s)
    (hperm : s.userPermission caller = true)
    (hloc : s.storyLocations locationId = some location)
    (hout : location.sequenceNumber < 1 ∨
      location.sequenceNumber >
        (ensureProgressInitialized s caller).2.totalLocations) :
    updateProgress s caller locationId seqs =
      Except.error BackendError.invalidSequenceNumber ∧
    runUpdateProgress s caller locationId seqs = s := by
  have hrange := reachable_rangeInv hreach
  have hdup : location.sequenceNumber ∉
      (ensureProgressInitialized s caller).2.completedLocations := by
    intro hmem
    cases hq : s.userProgress caller with
    | some p =>
        have he : ensureProgressInitialized s caller = (s, p) :=
          ensure_of_some hq
        rw [he] at hmem hout
        have hout' : location.sequenceNumber < 1 ∨
            location.sequenceNumber > p.totalLocations := hout
        have := hrange caller p hq location.sequenceNumber hmem
        omega
    | none =>
        rw [ensure_snd, hq] at hmem
        simp [initialProgress] at hmem
  rcases updateProgress_resolved s caller locationId seqs location hperm hloc
    with ⟨hd, _⟩ | ⟨_, _, h⟩ | ⟨_, hlo, hhi, _⟩
  · exact absurd ((isLocationCompleted_iff_mem _ _).mp hd) hdup
  · exact ⟨h, by simp [runUpdateProgress, h]⟩
  · omega

/-- A configured location resolving to the out-of-range sequence number 0,
used to witness C4. -/
def c4WitnessLocation : StoryLocation :=
  { id := "location_zero", title := "", content := "", audioUrl := none
    sequenceNumber := 0, nextLocationHint := "" }

/-- A deployment-initial state whose configuration resolves `location_zero`
to sequence number 0. -/
def c4WitnessState : BackendState :=
  initState (fun id => if id = "location_zero" then some c4WitnessLocation else none)
    (fun _ => true) (fun _ => true)

/-- Witness for C4 at a concrete reachable state: the write of sequence 0
fails with the out-of-range trap and leaves the state unchanged. -/
theorem C4_witness :
    updateProgress c4WitnessState 0 "location_zero" [] =
      Except.error BackendError.invalidSequenceNumber ∧
    runUpdateProgress c4WitnessState 0 "location_zero" [] = c4WitnessState :=
  C4_out_of_range_rejection c4WitnessState 0 "location_zero" []
    c4WitnessLocation (Reachable.init _ _ _) rfl (by simp [c4WitnessState, initState])
    (Or.inl (by decide))

/-- C10 (implicit): the duplicate-membership check runs before range
validation.  For every state, caller and location whose resolved sequence
number is already in the caller's `completedLocations`, `updateProgress`
returns the unchanged record successfully — with no hypothesis bounding the
sequence number, so this holds even for a sequence number outside
`[1, totalLocations]`, making the out-of-range rejection unreachable for
already-completed locations. -/
theorem C10_duplicate_check_before_range (s : BackendState)
    (caller : Principal) (locationId : String) (seqs : List Nat)
    (location : StoryLocation)
    (hperm : s.userPermission caller = true)
    (hloc : s.storyLocations locationId = some location)
    (hmem : location.sequenceNumber ∈
      (ensureProgressInitialized s caller).2.completedLocations) :
    updateProgress s caller locationId seqs =
      .ok ((ensureProgressInitialized s caller).1,
        (ensureProgressInitialized s caller).2) := by
  rcases updateProgress_resolved s caller locationId seqs location hperm hloc
    with ⟨_, h⟩ | ⟨hd, _, _⟩ | ⟨hd, _, _, _⟩
  · exact h
  · rw [(isLocationCompleted_iff_mem _ _).mpr hmem] at hd
    cases hd
  · rw [(isLocationCompleted_iff_mem _ _).mpr hmem] at hd
    cases hd

/-- A configured location resolving to sequence number 99, far outside the
range `[1, 3]`, used to witness C10. -/
def c10WitnessLocation : StoryLocation :=
  { id := "location_99", title := "", content := "", audioUrl := none
    sequenceNumber := 99, nextLocationHint := "" }

/-- A state in which identity 0's record already contains the out-of-range
sequence number 99. -/
def c10WitnessState : BackendState :=
  { userProgress := fun u =>
      if u = 0 then
        some { lastCompletedLocation := 99, completedLocations := [99]
               currentSequences := [], totalLocations := 3
               mainProgress :=
                 { stage1 := true, stage2 := false, stage3 := false } }
      else none
    storyLocations := fun id =>
      if id = "location_99" then some c10WitnessLocation else none
    userPermission := fun _ => true
    adminPermission := fun _ => true }

/-- Witness for C10: a write resolving to the already-completed sequence 99
succeeds with the unchanged record even though 99 exceeds
`totalLocations = 3`. -/
theorem C10_witness :
    c10WitnessLocation.sequenceNumber >
      (ensureProgressInitialized c10WitnessState 0).2.totalLocations ∧
    updateProgress c10WitnessState 0 "location_99" [] =
      .ok ((ensureProgressInitialized c10WitnessState 0).1,
        (ensureProgressInitialized c10WitnessState 0).2) :=
  ⟨by decide,
    C10_duplicate_check_before_range c10WitnessState 0 "location_99" []
      c10WitnessLocation rfl (by simp [c10WitnessState]) (by decide)⟩

/-- C7: monotonicity.  For every identity, the server-side
`completedLocations` list never shrinks: across any sequence of backend
operations (`updateProgress`, `updateMainProgress`, `getUserProgress`,
`initializeLocations`) and across any reconciliation pass
(`syncUnsyncedProgress`), the successor state's set contains the predecessor
state's set. -/
theorem C7_monotonicity (ops : List BackendOp) (s : BackendState)
    (u caller : Principal) (store : Option StoredProgress) :
    progressSetOf s u ⊆ progressSetOf (applyOps s ops) u ∧
    progressSetOf s u ⊆
      progressSetOf (syncUnsyncedProgress s caller store).server u :=
  ⟨(progressSetOf_applyOps_isPrefix ops s u).subset,
    (syncUnsyncedProgress_server_isPrefix s caller store u).subset⟩

/-- C9: numeric-safe round-trip.  For every progress record and timestamp,
loading the record saved to durable text storage restores it exactly: every
field, in particular every sequence identifier however large, round-trips
through the decimal string encoding without any floating-point
truncation. -/
theorem C9_numeric_safe_round_trip (p : UserProgress) (now : Nat) :
    loadProgressFromLocalStorage (some (saveProgressToLocalStorage p now)) =
      some p := by
  simp [loadProgressFromLocalStorage, decodeStoredProgress_save]

/-- An access-control verdict granting `#user` and `#admin` to everyone. -/
def c2Perm : Principal → Bool := fun _ => true

/-- The deployment-initial state used for the C2 counterexample. -/
def c2InitialState : BackendState := initState (fun _ => none) c2Perm c2Perm

/-- The reachable state obtained by a single `updateMainProgress(1)` call
from a fresh identity. -/
def c2ViolatingState : BackendState :=
  applyOp c2InitialState (BackendOp.updateMain 0 1)

/-- Counterexample to C2 as stated: the state reached by one
`updateMainProgress(1)` call stores a record with `stage1 = true` while
`completedLocations` is empty, so `stage1 == (|completedLocations| >= 1)`
fails in a reachable state — `updateMainProgress` sets a stage flag without
the corresponding completions. -/
theorem C2_counterexample :
    Reachable c2ViolatingState ∧
    (c2ViolatingState.userProgress 0).map (fun p => p.mainProgress.stage1) =
      some true ∧
    (c2ViolatingState.userProgress 0).map (fun p => p.completedLocations) =
      some [] := by
  refine ⟨Reachable.step _ (Reachable.init _ _ _), ?_, ?_⟩ <;> rfl

/-- C2 (amended): the derived-flag invariant
`stageN == (|completedLocations| >= N)` holds in every state reachable by
any sequence of operations that does not include `updateMainProgress`
(`updateProgress` recomputes all three flags on every write);
`updateMainProgress` breaks it by setting a flag directly. -/
theorem C2_flags_invariant_without_updateMain (s : BackendState)
    (h : ReachableNoMainUpdate s) : FlagsInv s :=
  reachableNoMainUpdate_flagsInv h

/-- The state reached by one successful `updateProgress` write from a fresh
deployment whose configuration resolves `location_1`. -/
def c2WitnessAfterState : BackendState :=
  runUpdateProgress
    (initState (fun id => if id = "location_1" then some location1 else none)
      c2Perm c2Perm) 0 "location_1" []

/-- Boolean form of the derived-flag consistency of one record. -/
def stageFlagsConsistent (p : UserProgress) : Bool :=
  (p.mainProgress.stage1 == decide (p.completedLocations.length ≥ 1)) &&
  (p.mainProgress.stage2 == decide (p.completedLocations.length ≥ 2)) &&
  (p.mainProgress.stage3 == decide (p.completedLocations.length ≥ 3))

/-- Witness for the amended C2 at a concrete reachable-without-
`updateMainProgress` state: after one write the stored record's flags agree
with its completion count. -/
theorem C2_amended_witness :
    (c2WitnessAfterState.userProgress 0).map stageFlagsConsistent =
      some true := by
  have h := C2_flags_invariant_without_updateMain c2WitnessAfterState
    (ReachableNoMainUpdate.stepUpdate 0 "location_1" []
      (ReachableNoMainUpdate.init _ _ _))
  have hr : c2WitnessAfterState.userProgress 0 = some
      { lastCompletedLocation := 1, completedLocations := [1]
        currentSequences := [], totalLocations := 3
        mainProgress := { stage1 := true, stage2 := false, stage3 := false } } := by
    rfl
  rcases h 0 _ hr with ⟨h1, h2, h3⟩
  rw [hr]
  simp [stageFlagsConsistent, h1, h2, h3]

/-- An operation that fails with the terminal authorization error on every
attempt. -/
def c5TerminalOperation : Nat → Except MutationError UserProgress :=
  fun _ => .error MutationError.unauthorized

/-- Counterexample to C5 as stated: under the bounded-retry executor
`retryWithBackoff`, an operation that fails with the terminal authorization
error on its first attempt is still retried — the run consumes all
`maxRetries + 1 = 3` attempts instead of returning immediately after the
first occurrence. -/
theorem C5_counterexample :
    (retryWithBackoff c5TerminalOperation 2).attempts = 3 ∧
    (retryWithBackoff c5TerminalOperation 2).error =
      some MutationError.unauthorized ∧
    ¬(retryWithBackoff c5TerminalOperation 2).attempts = 1 :=
  ⟨rfl, rfl, by decide⟩

/-- Exhaustion analysis of the retry loop: when every attempt fails — with
errors of any class — the loop runs all attempts and reports the last
error. -/
theorem retryWithBackoffFrom_all_fail {T E : Type}
    (operation : Nat → Except E T) (maxRetries : Nat) (es : Nat → E) :
    ∀ remaining attempt, attempt + remaining = maxRetries →
      (∀ k, attempt ≤ k → k ≤ maxRetries → operation k = .error (es k)) →
      retryWithBackoffFrom operation maxRetries attempt remaining =
        { success := false, result := none, error := some (es maxRetries)
          attempts := maxRetries + 1 } := by
  intro remaining
  induction remaining with
  | zero =>
      intro attempt hsum hfail
      have ha : attempt = maxRetries := by omega
      subst ha
      simp only [retryWithBackoffFrom,
        hfail attempt (Nat.le_refl _) (Nat.le_refl _)]
  | succ remaining ih =>
      intro attempt hsum hfail
      simp only [retryWithBackoffFrom,
        hfail attempt (Nat.le_refl _) (by omega)]
      exact ih (attempt + 1) (by omega) (fun k hk1 hk2 => hfail k (by omega) hk2)

/-- C5 (amended): the bounded-retry executor treats every failure class
uniformly — any operation failing on all attempts, whether with
network-class or terminal (authorization/validation) errors, consumes all
`maxRetries + 1` attempts and resolves with the last error; failure classes
are only distinguished after exhaustion, when `handleComplete` and the
mutation's catch block shape the surfaced error. -/
theorem C5_retry_consumes_all_failures {T : Type}
    (operation : Nat → Except MutationError T) (maxRetries : Nat)
    (es : Nat → MutationError)
    (hfail : ∀ k, k ≤ maxRetries → operation k = .error (es k)) :
    retryWithBackoff operation maxRetries =
      { success := false, result := none, error := some (es maxRetries)
        attempts := maxRetries + 1 } :=
  retryWithBackoffFrom_all_fail operation maxRetries es maxRetries 0
    (by omega) (fun k _ hk2 => hfail k hk2)

/-- Witness for the amended C5: the always-unauthorized operation exhausts
all three attempts and surfaces the terminal error only at the end. -/
theorem C5_amended_witness :
    retryWithBackoff c5TerminalOperation 2 =
      { success := false, result := none
        error := some MutationError.unauthorized, attempts := 3 } :=
  C5_retry_consumes_all_failures c5TerminalOperation 2
    (fun _ => MutationError.unauthorized) (fun _ _ => rfl)

/-- C6: optimistic retention on network failure.  When every attempt of a
`complete` call fails with a network-class error, the surfaced error is the
recoverable "saved locally" one (`handleComplete` shows a warning and closes
the modal rather than raising a fatal error), the optimistic query-cache
entry is exactly the `onMutate` result — never rolled back, so it still
contains the completion — and the localStorage cache ends up holding the
completion with `synced = false` as its only flag change. -/
theorem C6_optimistic_retention (cs : ClientState) (locationId : String)
    (sequences : List Nat) (now : Nat) (attempts : Nat)
    (hatt : 1 ≤ attempts)
    (hnew : clientLocationNumber locationId ∉ cacheCompletedOf cs.localStore) :
    (completeDuringNetworkOutage cs locationId sequences now attempts).2.1 =
      MutationError.networkSavedLocally ∧
    handleCompleteFailure
        (completeDuringNetworkOutage cs locationId sequences now attempts).2.1 =
      { toast := ToastKind.warning, modalClosed := true } ∧
    (completeDuringNetworkOutage cs locationId sequences now
        attempts).1.queryCache = onMutateOptimistic cs.queryCache locationId ∧
    (∀ p, cs.queryCache = some p →
      ∃ q, (completeDuringNetworkOutage cs locationId sequences now
          attempts).1.queryCache = some q ∧
        clientLocationNumber locationId ∈ q.completedLocations) ∧
    (∃ sp, (completeDuringNetworkOutage cs locationId sequences now
        attempts).1.localStore = some sp ∧
      sp.synced = false ∧
      (decodeStoredProgress sp).completedLocations =
        cacheCompletedOf cs.localStore ++ [clientLocationNumber locationId]) := by
  refine ⟨rfl, rfl, ?_, ?_, ?_⟩
  · simp [completeDuringNetworkOutage, onErrorRollback]
  · intro p hp
    refine ⟨optimisticUpdate p locationId, ?_, optimisticUpdate_mem p locationId⟩
    simp [completeDuringNetworkOutage, onErrorRollback, onMutateOptimistic, hp]
  · obtain ⟨sp, hsp, hsync, hcomp⟩ := networkOutageLocalStoreAfter_spec
      cs.localStore locationId sequences now attempts hatt hnew
    exact ⟨sp, hsp, hsync, hcomp⟩

/-- Witness for C6: a fresh client (empty caches) completing `location_1`
during a total outage of three attempts. -/
theorem C6_witness :
    (completeDuringNetworkOutage ⟨none, none⟩ "location_1" [] 5 3).2.1 =
      MutationError.networkSavedLocally ∧
    handleCompleteFailure
        (completeDuringNetworkOutage ⟨none, none⟩ "location_1" [] 5 3).2.1 =
      { toast := ToastKind.warning, modalClosed := true } ∧
    (completeDuringNetworkOutage ⟨none, none⟩ "location_1" [] 5
        3).1.queryCache = onMutateOptimistic none "location_1" ∧
    (∀ p, (none : Option UserProgress) = some p →
      ∃ q, (completeDuringNetworkOutage ⟨none, none⟩ "location_1" [] 5
          3).1.queryCache = some q ∧
        clientLocationNumber "location_1" ∈ q.completedLocations) ∧
    (∃ sp, (completeDuringNetworkOutage ⟨none, none⟩ "location_1" [] 5
        3).1.localStore = some sp ∧
      sp.synced = false ∧
      (decodeStoredProgress sp).completedLocations =
        cacheCompletedOf none ++ [clientLocationNumber "location_1"]) :=
  C6_optimistic_retention ⟨none, none⟩ "location_1" [] 5 3 (by decide)
    (by decide)

/-- C8: reconciliation behaviour.  `syncUnsyncedProgress` (i) is a no-op
resolving `true` when the cache has no unsynced entry; (ii) leaves the cache
record untouched — hence still unsynced — whenever it reports failure; and
(iii) against a healthy authoritative store it reads the store fresh, replays
a write for exactly the locations present in the cached `completedLocations`
but absent on the server, marks the cache `synced = true`, and leaves no
unsynced entry, so an immediately repeated invocation is a no-op (its
server-side effects being idempotent writes only). -/
theorem C8_reconcile_behaviour (server : BackendState) (caller : Principal)
    (store : Option StoredProgress) :
    (hasUnsyncedProgress store = false →
      syncUnsyncedProgress server caller store =
        { server := server, store := store, ok := true, writes := [] }) ∧
    ((syncUnsyncedProgress server caller store).ok = false →
      (syncUnsyncedProgress server caller store).store = store) ∧
    (∀ sp, store = some sp → sp.synced = false →
      server.userPermission caller = true → TotalInv server →
      (∀ m ∈ (decodeStoredProgress sp).completedLocations, ∃ loc,
        server.storyLocations ("location_" ++ toString m) = some loc ∧
        loc.sequenceNumber = m ∧ 1 ≤ m ∧ m ≤ 3) →
      (syncUnsyncedProgress server caller store).ok = true ∧
      (syncUnsyncedProgress server caller store).store =
        markStoredSynced store ∧
      hasUnsyncedProgress (syncUnsyncedProgress server caller store).store =
        false ∧
      (syncUnsyncedProgress server caller store).writes =
        ((decodeStoredProgress sp).completedLocations.filter
          (fun loc =>
            !((ensureProgressInitialized server caller).2.completedLocations.any
              (fun bLoc => bLoc == loc)))).map
          (fun m => "location_" ++ toString m)) := by
  refine ⟨?_, syncUnsyncedProgress_store_of_not_ok server caller store, ?_⟩
  · intro h
    unfold syncUnsyncedProgress
    rw [if_pos (by simp [h])]
  · intro sp hsp hsynced hperm htotal hres
    subst hsp
    obtain ⟨h1, h2, _, h4⟩ :=
      syncUnsyncedProgress_healthy server caller sp hsynced hperm htotal hres
    refine ⟨h1, h2, ?_, h4⟩
    rw [h2]
    simp [markStoredSynced, hasUnsyncedProgress]

/-- A healthy authoritative server whose configuration resolves `location_1`,
used to witness C8 and C1. -/
def healthyWitnessServer : BackendState :=
  initState (fun id => if id = "location_1" then some location1 else none)
    (fun _ => true) (fun _ => true)

/-- A cached localStorage record holding completion 1, marked unsynced. -/
def c8WitnessStored : StoredProgress :=
  { lastCompletedLocation := [1], totalLocations := [3]
    completedLocations := [[1]]
    mainProgress := { stage1 := true, stage2 := false, stage3 := false }
    currentSequences := [], timestamp := 7, synced := false }

/-- Witness for C8 at a concrete healthy server and unsynced cache: the pass
succeeds, marks the cache synced and writes exactly `location_1`. -/
theorem C8_witness :
    (syncUnsyncedProgress healthyWitnessServer 0 (some c8WitnessStored)).ok =
      true ∧
    (syncUnsyncedProgress healthyWitnessServer 0
        (some c8WitnessStored)).store =
      markStoredSynced (some c8WitnessStored) ∧
    hasUnsyncedProgress
      (syncUnsyncedProgress healthyWitnessServer 0
        (some c8WitnessStored)).store = false := by
  have h := (C8_reconcile_behaviour healthyWitnessServer 0
    (some c8WitnessStored)).2.2 c8WitnessStored rfl rfl rfl
    (by intro u p hp; simp [healthyWitnessServer, initState] at hp)
    (by
      intro m hm
      have hm1 : m = 1 := by
        simpa [c8WitnessStored, decodeStoredProgress, decimalDigitsToNat]
          using hm
      subst hm1
      exact ⟨location1, by decide, rfl, by omega, by omega⟩)
  exact ⟨h.1, h.2.1, h.2.2.1⟩

/-- C1: no-loss under failure.  If every network attempt of a
`complete(identity, location)` call fails, the completion is saved to the
local cache and marked unsynced; a subsequent `reconcile(identity)`
(`syncUnsyncedProgress`) against a now-healthy authoritative store succeeds
and leaves that location a member of the server's `completedLocations` for
the identity — the completion is never thrown away. -/
theorem C1_no_loss_under_failure (server : BackendState) (cs : ClientState)
    (caller : Principal) (locationId : String) (sequences : List Nat)
    (now : Nat) (attempts : Nat)
    (hatt : 1 ≤ attempts)
    (hnew : clientLocationNumber locationId ∉ cacheCompletedOf cs.localStore)
    (hperm : server.userPermission caller = true)
    (htotal : TotalInv server)
    (hres : ∀ m ∈ cacheCompletedOf cs.localStore ++
        [clientLocationNumber locationId],
      ∃ loc, server.storyLocations ("location_" ++ toString m) = some loc ∧
        loc.sequenceNumber = m ∧ 1 ≤ m ∧ m ≤ 3) :
    ∃ sp, (completeDuringNetworkOutage cs locationId sequences now
        attempts).1.localStore = some sp ∧
      sp.synced = false ∧
      clientLocationNumber locationId ∈
        (decodeStoredProgress sp).completedLocations ∧
      (syncUnsyncedProgress server caller (some sp)).ok = true ∧
      clientLocationNumber locationId ∈
        progressSetOf (syncUnsyncedProgress server caller (some sp)).server
          caller := by
  obtain ⟨sp, hsp, hsync, hcomp⟩ := networkOutageLocalStoreAfter_spec
    cs.localStore locationId sequences now attempts hatt hnew
  have hmem : clientLocationNumber locationId ∈
      (decodeStoredProgress sp).completedLocations := by
    rw [hcomp]
    simp
  have hres' : ∀ m ∈ (decodeStoredProgress sp).completedLocations, ∃ loc,
      server.storyLocations ("location_" ++ toString m) = some loc ∧
      loc.sequenceNumber = m ∧ 1 ≤ m ∧ m ≤ 3 := by
    intro m hm
    rw [hcomp] at hm
    exact hres m hm
  obtain ⟨h1, _, h3, _⟩ :=
    syncUnsyncedProgress_healthy server caller sp hsync hperm htotal hres'
  exact ⟨sp, hsp, hsync, hmem, h1, h3 _ hmem⟩

/-- Witness for C1: a fresh client completes `location_1` during a total
three-attempt outage, then reconciles against the healthy server. -/
theorem C1_witness :
    ∃ sp, (completeDuringNetworkOutage ⟨none, none⟩ "location_1" [] 5
        3).1.localStore = some sp ∧
      sp.synced = false ∧
      clientLocationNumber "location_1" ∈
        (decodeStoredProgress sp).completedLocations ∧
      (syncUnsyncedProgress healthyWitnessServer 0 (some sp)).ok = true ∧
      clientLocationNumber "location_1" ∈
        progressSetOf
          (syncUnsyncedProgress healthyWitnessServer 0 (some sp)).server 0 :=
  C1_no_loss_under_failure healthyWitnessServer ⟨none, none⟩ 0 "location_1"
    [] 5 3 (by decide) (by decide) rfl
    (by intro u p hp; simp [healthyWitnessServer, initState] at hp)
    (by
      intro m hm
      have hm1 : m = 1 := by
        simpa [cacheCompletedOf, loadProgressFromLocalStorage,
          clientDefaultProgress, clientLocationNumber] using hm
      subst hm1
      exact ⟨location1, by decide, rfl, by omega, by omega⟩)

/-- Witness for C7 at a concrete input: monotonicity instantiated on the
healthy witness server, a write/read operation sequence, identity 0 and an
empty cache. -/
theorem C7_witness :
    progressSetOf healthyWitnessServer 0 ⊆
      progressSetOf (applyOps healthyWitnessServer
        [BackendOp.update 0 "location_1" [], BackendOp.getProgress 0]) 0 ∧
    progressSetOf healthyWitnessServer 0 ⊆
      progressSetOf
        (syncUnsyncedProgress healthyWitnessServer 0 none).server 0 :=
  C7_monotonicity [BackendOp.update 0 "location_1" [], BackendOp.getProgress 0]
    healthyWitnessServer 0 0 none
